import Mathlib

/-!
Verification development for the kafkaspectre repository: a shallow
embedding of the classification and reconciliation core (the `check` and
`audit` result builders from `cmd/kafkaspectre/main.go`), the retention
humanizer (`internal/reporter/audit.go`), and the hand-rolled
configuration parser (`internal/config`), together with theorems settling
the specification's claims about them.

Modelling conventions:
 - Go strings are modelled as `List Char` (`Str`); Go's byte-wise
   lexicographic string order coincides with code-point order on the
   values that occur here, and UTF-8 is order preserving, so the
   `List Char` lexicographic order is used for all string sorts.
 - Go maps (`map[string]*T`) are modelled as association lists
   `List (Str × T)`.  Go map iteration order is unspecified; every result
   the embedded code produces is sorted afterwards, so the embedding
   iterates in list order and sorts with `List.insertionSort` (ties in
   every comparator below are either impossible or produce equal output
   elements, so any correct sort yields the same list as Go's
   `sort.Slice`/`sort.Strings`).
 - Go `int`/`int64` are modelled as `Int`; the one place where 64-bit
   overflow is observable (`time.Duration(ms) * time.Millisecond` in
   `FormatRetentionMs`) wraps explicitly through `wrap64`.
 - `float64` enters only via `time.Duration.Hours()/Minutes()` inside
   `FormatRetentionMs` and the percentage summary fields.  The duration
   conversions are modelled as exact truncated (toward-zero) integer
   division, which agrees with the float computation on all inputs whose
   nanosecond value fits in `int64` (the millisecond granularity of the
   input dwarfs the float rounding error at every branch boundary);
   percentages are modelled as exact rationals.
-/

/-- Go strings, modelled as lists of characters. -/
abbrev Str := List Char

instance {ε α : Type} [DecidableEq ε] [DecidableEq α] : DecidableEq (Except ε α) := by
  intro a b
  cases a <;> cases b
  case error.error e e' =>
    exact if h : e = e' then .isTrue (by rw [h]) else .isFalse (by simp [h])
  case ok.ok v v' =>
    exact if h : v = v' then .isTrue (by rw [h]) else .isFalse (by simp [h])
  case error.ok e v => exact .isFalse (by simp)
  case ok.error v e => exact .isFalse (by simp)

/-- Association-list lookup, modelling Go map indexing (`m[k]`).
Returns the first binding for the key. -/
def assocFind {β : Type} (m : List (Str × β)) (k : Str) : Option β :=
  match m.find? (fun p => p.1 = k) with
  | some p => some p.2
  | none => none

/-- Go map indexing into a `map[string]string`, which yields `""` for a
missing key. -/
def mapGetStr (m : List (Str × Str)) (k : Str) : Str :=
  (assocFind m k).getD []

/- ---------------------------------------------------------------------
Glob matching: a model of Go `path.Match` as used by
`shouldExcludeTopic`.  `none` models `ErrBadPattern`.  The matcher is
written with explicit fuel so that it is structurally recursive (every
step consumes at least one character of the pattern or the name, so the
fuel supplied by `shouldExcludeTopic` can never run out).
--------------------------------------------------------------------- -/

/-- One character (possibly backslash-escaped) inside a `[...]` class;
`none` models `ErrBadPattern` (empty, `-`, `]`, or dangling escape). -/
def getEsc : Str → Option (Char × Str)
  | [] => none
  | '-' :: _ => none
  | ']' :: _ => none
  | '\\' :: [] => none
  | '\\' :: c :: rest => some (c, rest)
  | c :: rest => some (c, rest)

/-- Scan a `[...]` character class (after `[` and an optional `^`),
testing whether `c` is in the class.  Returns the rest of the pattern
after the closing `]`.  `acc` accumulates "matched so far"; `first`
rejects the empty class. -/
def classScan : Nat → Str → Char → Bool → Bool → Option (Bool × Str)
  | 0, _, _, _, _ => none
  | _ + 1, [], _, _, _ => none
  | _ + 1, ']' :: rest, _, acc, first =>
      if first then none else some (acc, rest)
  | fuel + 1, s, c, acc, _ =>
      match getEsc s with
      | none => none
      | some (lo, s1) =>
        match s1 with
        | '-' :: s2 =>
          match getEsc s2 with
          | none => none
          | some (hi, s3) => classScan fuel s3 c (acc || (lo ≤ c && c ≤ hi)) false
        | _ => classScan fuel s1 c (acc || (c = lo)) false

/-- Model of Go `path.Match pattern name`: `*` and `?` match non-`/`
characters only, `[...]` is a single-character class, `\\` escapes.
`none` models `ErrBadPattern`. -/
def pathMatch : Nat → Str → Str → Option Bool
  | 0, _, _ => none
  | _ + 1, [], name => some (name = [])
  | fuel + 1, '*' :: p, name =>
      (match pathMatch fuel p name with
       | none => none
       | some true => some true
       | some false =>
         match name with
         | [] => some false
         | c :: rest =>
           if c = '/' then some false else pathMatch fuel ('*' :: p) rest)
  | fuel + 1, '?' :: p, name =>
      (match name with
       | [] => some false
       | c :: rest => if c = '/' then some false else pathMatch fuel p rest)
  | fuel + 1, '[' :: p, name =>
      (match name with
       | [] => some false
       | c :: rest =>
         if c = '/' then some false
         else
           let (neg, p1) := match p with
             | '^' :: p' => (true, p')
             | _ => (false, p)
           match classScan fuel p1 c false true with
           | none => none
           | some (inSet, p2) =>
             if inSet ≠ neg then pathMatch fuel p2 rest else some false)
  | fuel + 1, '\\' :: p, name =>
      (match p with
       | [] => none
       | e :: p' =>
         match name with
         | [] => some false
         | c :: rest => if c = e then pathMatch fuel p' rest else some false)
  | fuel + 1, ch :: p, name =>
      (match name with
       | [] => some false
       | c :: rest => if c = ch then pathMatch fuel p rest else some false)

/-- `shouldExcludeTopic` from `cmd/kafkaspectre/main.go`: true when any
pattern glob-matches the topic; a malformed pattern is skipped. -/
def shouldExcludeTopic (topic : Str) (patterns : List Str) : Bool :=
  patterns.any (fun pattern =>
    (pathMatch (pattern.length + topic.length + 1) pattern topic).getD false)

/- ---------------------------------------------------------------------
Data model: `internal/kafka/types.go` and `internal/scanner`.
Fields of types not used by the embedded code paths (timestamps, lag
maps, coordinator ids, TLS configuration) are omitted.
--------------------------------------------------------------------- -/

namespace kafka

/-- `kafka.TopicInfo`. -/
structure TopicInfo where
  Name : Str
  Partitions : Int
  ReplicationFactor : Int
  Config : List (Str × Str)
  Internal : Bool
deriving DecidableEq

/-- `kafka.ConsumerGroupInfo` (lag map, last-commit time and coordinator
id omitted: unused by the embedded code). -/
structure ConsumerGroupInfo where
  GroupID : Str
  State : Str
  Members : Int
  Topics : List Str
deriving DecidableEq

/-- `kafka.BrokerInfo`. -/
structure BrokerInfo where
  ID : Int
  Host : Str
  Port : Int
  Rack : Str
deriving DecidableEq

/-- `kafka.ClusterMetadata` (fetch timestamp omitted). -/
structure ClusterMetadata where
  Topics : List (Str × TopicInfo)
  ConsumerGroups : List (Str × ConsumerGroupInfo)
  Brokers : List BrokerInfo
deriving DecidableEq

end kafka

namespace scanner

/-- `scanner.Reference`. -/
structure Reference where
  Topic : Str
  File : Str
  Line : Int
  Source : Str
deriving DecidableEq

/-- `scanner.TopicReference`. -/
structure TopicReference where
  Topic : Str
  Occurrences : List Reference
deriving DecidableEq

/-- `scanner.Result`. -/
structure Result where
  RepoPath : Str
  FilesScanned : Int
  Topics : List (Str × TopicReference)
deriving DecidableEq

end scanner

/- ---------------------------------------------------------------------
Reporter result model: `internal/reporter/audit_json.go` and
`internal/reporter/audit.go`.
--------------------------------------------------------------------- -/

namespace reporter

/-- `reporter.CheckStatus` is a Go string type. -/
abbrev CheckStatus := Str

/-- `CheckStatusOK = "OK"`. -/
def CheckStatusOK : CheckStatus := "OK".data

/-- `CheckStatusMissingInCluster = "MISSING_IN_CLUSTER"`. -/
def CheckStatusMissingInCluster : CheckStatus := "MISSING_IN_CLUSTER".data

/-- `CheckStatusUnreferencedInRepo = "UNREFERENCED_IN_REPO"`. -/
def CheckStatusUnreferencedInRepo : CheckStatus := "UNREFERENCED_IN_REPO".data

/-- `CheckStatusUnused = "UNUSED"`. -/
def CheckStatusUnused : CheckStatus := "UNUSED".data

/-- `reporter.CheckReference`. -/
structure CheckReference where
  File : Str
  Line : Int
  Source : Str
deriving DecidableEq

/-- `reporter.CheckFinding`. -/
structure CheckFinding where
  Topic : Str
  Status : CheckStatus
  ReferencedInRepo : Bool
  InCluster : Bool
  ConsumerGroups : List Str
  References : List CheckReference
  Reason : Str
deriving DecidableEq

/-- `reporter.CheckSummary`. -/
structure CheckSummary where
  RepoPath : Str
  FilesScanned : Int
  RepoTopics : Int
  ClusterTopics : Int
  TotalFindings : Int
  OKCount : Int
  MissingInClusterCount : Int
  UnreferencedInRepoCount : Int
  UnusedCount : Int
deriving DecidableEq

/-- `reporter.CheckResult`. -/
structure CheckResult where
  Summary : CheckSummary
  Findings : List CheckFinding
deriving DecidableEq

/-- `reporter.UnusedTopic`. -/
structure UnusedTopic where
  Name : Str
  Partitions : Int
  ReplicationFactor : Int
  RetentionMs : Str
  RetentionHuman : Str
  CleanupPolicy : Str
  MinInsyncReplicas : Str
  InterestingConfig : List (Str × Str)
  Reason : Str
  Recommendation : Str
  Risk : Str
  CleanupPriority : Int
deriving DecidableEq

/-- `reporter.ActiveTopic`. -/
structure ActiveTopic where
  Name : Str
  Partitions : Int
  ReplicationFactor : Int
  ConsumerGroups : List Str
  ConsumerCount : Int
deriving DecidableEq

/-- `reporter.AuditSummary`.  The `float64` percentage fields are
modelled as exact rationals; the `PotentialSavingsInfo` narrative string
(one-decimal float formatting) is omitted: no verified property reads
it. -/
structure AuditSummary where
  ClusterName : Str
  TotalBrokers : Int
  TotalTopicsIncludingInternal : Int
  TotalTopics : Int
  UnusedTopics : Int
  ActiveTopics : Int
  InternalTopics : Int
  UnusedPercentage : Rat
  TotalPartitions : Int
  UnusedPartitions : Int
  ActivePartitions : Int
  UnusedPartitionsPercent : Rat
  TotalConsumerGroups : Int
  HighRiskCount : Int
  MediumRiskCount : Int
  LowRiskCount : Int
  RecommendedCleanup : List Str
  ClusterHealthScore : Str
deriving DecidableEq

/-- `reporter.AuditResult`. -/
structure AuditResult where
  Summary : AuditSummary
  UnusedTopics : List UnusedTopic
  ActiveTopics : List ActiveTopic
  Metadata : kafka.ClusterMetadata
  TotalTopics : Int
  UnusedCount : Int
  ActiveCount : Int
  InternalCount : Int
deriving DecidableEq

/-- The key set of `FilterInterestingConfig` (`internal/reporter/audit.go`). -/
def importantKeys : List Str :=
  ["retention.ms".data, "retention.bytes".data, "cleanup.policy".data,
   "min.insync.replicas".data, "compression.type".data,
   "max.message.bytes".data, "segment.ms".data, "segment.bytes".data,
   "delete.retention.ms".data]

/-- `reporter.FilterInterestingConfig`: keeps only the important config
keys (map iteration order is irrelevant to the resulting map; the
embedding keeps list order). -/
def FilterInterestingConfig (config : List (Str × Str)) : List (Str × Str) :=
  config.filter (fun p => p.1 ∈ importantKeys)

end reporter

/- ---------------------------------------------------------------------
Integer parsing / formatting helpers for `FormatRetentionMs`.
--------------------------------------------------------------------- -/

/-- Decimal value of a digit string. -/
def natOfDigits (s : Str) : Nat :=
  s.foldl (fun acc c => acc * 10 + (c.toNat - 48)) 0

/-- Model of Go `strconv.ParseInt(s, 10, 64)`: optional sign, at least
one decimal digit, and the value must fit in a signed 64-bit integer
(`none` models both syntax and range errors). -/
def goParseInt64 (s : Str) : Option Int :=
  let (neg, digits) :=
    match s with
    | '+' :: rest => (false, rest)
    | '-' :: rest => (true, rest)
    | rest => (false, rest)
  if digits = [] then none
  else if digits.all (fun c => '0' ≤ c && c ≤ '9') then
    let v : Int := if neg then -(natOfDigits digits : Int) else (natOfDigits digits : Int)
    if v < -(2 ^ 63) || 2 ^ 63 - 1 < v then none else some v
  else none

/-- Signed 64-bit wraparound, modelling Go `int64` overflow. -/
def wrap64 (x : Int) : Int :=
  (x + 2 ^ 63) % 2 ^ 64 - 2 ^ 63

/-- Go `fmt.Sprintf("%d", i)`. -/
def intToStr (i : Int) : Str :=
  if i < 0 then '-' :: Nat.toDigits 10 i.natAbs else Nat.toDigits 10 i.natAbs

namespace reporter

/-- `reporter.FormatRetentionMs` (`internal/reporter/audit.go`).
`duration := time.Duration(ms) * time.Millisecond` wraps at 64 bits
(`wrap64`); `int(duration.Hours()/24)`, `int(duration.Hours()) % 24` and
`int(duration.Minutes())` are modelled as exact truncated division of
the nanosecond count (see the header note on float modelling).  Go's
`%` on integers truncates like `Int.tmod`. -/
def FormatRetentionMs (retentionMs : Str) : Str :=
  if retentionMs = [] || retentionMs = "-1".data then "infinite".data
  else
    match goParseInt64 retentionMs with
    | none => retentionMs
    | some ms =>
      let d := wrap64 (ms * 1000000)
      let days := d.tdiv 86400000000000
      let hours := (d.tdiv 3600000000000).tmod 24
      let minutes := d.tdiv 60000000000
      if 0 < days then
        if 0 < hours then
          intToStr days ++ " days ".data ++ intToStr hours ++ " hours".data
        else
          intToStr days ++ " days".data
      else if 0 < hours then
        intToStr hours ++ " hours".data
      else if 0 < minutes then
        intToStr minutes ++ " minutes".data
      else
        intToStr ms ++ " ms".data

/-- `reporter.BuildUnusedTopic`. -/
def BuildUnusedTopic (topic : kafka.TopicInfo) (reason recommendation risk : Str)
    (priority : Int) : UnusedTopic :=
  let retentionMs := mapGetStr topic.Config "retention.ms".data
  { Name := topic.Name
    Partitions := topic.Partitions
    ReplicationFactor := topic.ReplicationFactor
    RetentionMs := retentionMs
    RetentionHuman := FormatRetentionMs retentionMs
    CleanupPolicy := mapGetStr topic.Config "cleanup.policy".data
    MinInsyncReplicas := mapGetStr topic.Config "min.insync.replicas".data
    InterestingConfig := FilterInterestingConfig topic.Config
    Reason := reason
    Recommendation := recommendation
    Risk := risk
    CleanupPriority := priority }

/-- `reporter.BuildActiveTopic`. -/
def BuildActiveTopic (topic : kafka.TopicInfo) (consumers : List Str) : ActiveTopic :=
  { Name := topic.Name
    Partitions := topic.Partitions
    ReplicationFactor := topic.ReplicationFactor
    ConsumerGroups := consumers
    ConsumerCount := consumers.length }

end reporter

/- ---------------------------------------------------------------------
`cmd/kafkaspectre/main.go`: classification helpers.
--------------------------------------------------------------------- -/

/-- `classifyCheckStatus` (`cmd/kafkaspectre/main.go`): the four-way
status switch, first match wins. -/
def classifyCheckStatus (referencedInRepo inCluster hasConsumers : Bool) :
    reporter.CheckStatus × Str :=
  if referencedInRepo && !inCluster then
    (reporter.CheckStatusMissingInCluster,
     "topic is referenced in code but does not exist in cluster".data)
  else if inCluster && !hasConsumers then
    if referencedInRepo then
      (reporter.CheckStatusUnused,
       "topic is referenced in code and exists in cluster but has no active consumer groups".data)
    else
      (reporter.CheckStatusUnused,
       "topic exists in cluster but has no active consumer groups".data)
  else if !referencedInRepo && inCluster then
    (reporter.CheckStatusUnreferencedInRepo,
     "topic exists in cluster with consumers but was not found in repository".data)
  else
    (reporter.CheckStatusOK,
     "topic exists in cluster and has active consumers".data)

/-- `checkStatusSortValue` (`cmd/kafkaspectre/main.go`). -/
def checkStatusSortValue (status : reporter.CheckStatus) : Int :=
  if status = reporter.CheckStatusMissingInCluster then 0
  else if status = reporter.CheckStatusUnused then 1
  else if status = reporter.CheckStatusUnreferencedInRepo then 2
  else if status = reporter.CheckStatusOK then 3
  else 4

/-- `classifyRisk` (`cmd/kafkaspectre/main.go`): risk tier and cleanup
priority from partition count and replication factor, first match wins. -/
def classifyRisk (topic : kafka.TopicInfo) : Str × Int :=
  if 10 ≤ topic.Partitions || 3 ≤ topic.ReplicationFactor then ("high".data, 3)
  else if 2 ≤ topic.Partitions || topic.ReplicationFactor = 2 then ("medium".data, 2)
  else ("low".data, 1)

/-- `recommendationForRisk` (`cmd/kafkaspectre/main.go`). -/
def recommendationForRisk (risk : Str) : Str :=
  if risk = "low".data then "Safe to delete after confirmation".data
  else if risk = "medium".data then "Review before deletion".data
  else if risk = "high".data then "Investigate before deletion".data
  else "Review before deletion".data

/-- `clusterHealthScore` (`cmd/kafkaspectre/main.go`). -/
def clusterHealthScore (unusedPercent : Rat) : Str :=
  if unusedPercent ≤ 10 then "excellent".data
  else if unusedPercent ≤ 25 then "good".data
  else if unusedPercent ≤ 50 then "fair".data
  else if unusedPercent ≤ 75 then "poor".data
  else "critical".data

/-- `percent` (`cmd/kafkaspectre/main.go`), with `float64` modelled as an
exact rational. -/
def percent (numerator denominator : Int) : Rat :=
  if denominator = 0 then 0 else ((numerator : Rat) / (denominator : Rat)) * 100

/-- `buildConsumersByTopic` (`cmd/kafkaspectre/main.go`), as the function
sending a topic name to its sorted duplicate-free list of consuming
group ids (the Go code materializes the same data as a map of sorted
slices). -/
def buildConsumersByTopic (metadata : kafka.ClusterMetadata) (topic : Str) : List Str :=
  List.insertionSort (· ≤ ·)
    ((metadata.ConsumerGroups.filterMap
      (fun g => if topic ∈ g.2.Topics then some g.2.GroupID else none)).dedup)

/-- The comparator of `convertCheckReferences`' `sort.Slice` call:
`(File, Line, Source)` ascending, as a non-strict total order. -/
def checkReferenceLe (a b : reporter.CheckReference) : Prop :=
  a.File < b.File ∨ (a.File = b.File ∧
    (a.Line < b.Line ∨ (a.Line = b.Line ∧ a.Source ≤ b.Source)))

instance : DecidableRel checkReferenceLe := fun a b => by
  unfold checkReferenceLe; infer_instance

instance : IsTotal reporter.CheckReference checkReferenceLe := by
  constructor
  intro a b
  rcases lt_trichotomy a.File b.File with h | h | h
  · exact .inl (.inl h)
  · rcases lt_trichotomy a.Line b.Line with h' | h' | h'
    · exact .inl (.inr ⟨h, .inl h'⟩)
    · rcases le_total a.Source b.Source with h'' | h''
      · exact .inl (.inr ⟨h, .inr ⟨h', h''⟩⟩)
      · exact .inr (.inr ⟨h.symm, .inr ⟨h'.symm, h''⟩⟩)
    · exact .inr (.inr ⟨h.symm, .inl h'⟩)
  · exact .inr (.inl h)

instance : IsTrans reporter.CheckReference checkReferenceLe := by
  constructor
  intro a b c hab hbc
  rcases hab with h | ⟨hf, hab⟩
  · rcases hbc with h' | ⟨hf', _⟩
    · exact .inl (h.trans h')
    · exact .inl (hf' ▸ h)
  · rcases hbc with h' | ⟨hf', hbc⟩
    · exact .inl (hf ▸ h')
    · refine .inr ⟨hf.trans hf', ?_⟩
      rcases hab with h | ⟨hl, hab⟩
      · rcases hbc with h' | ⟨hl', _⟩
        · exact .inl (h.trans h')
        · exact .inl (hl' ▸ h)
      · rcases hbc with h' | ⟨hl', hbc⟩
        · exact .inl (hl ▸ h')
        · exact .inr ⟨hl.trans hl', hab.trans hbc⟩

/-- `convertCheckReferences` (`cmd/kafkaspectre/main.go`). -/
def convertCheckReferences (refs : List scanner.Reference) : List reporter.CheckReference :=
  List.insertionSort checkReferenceLe
    (refs.map (fun ref => { File := ref.File, Line := ref.Line, Source := ref.Source }))

/-- The comparator of `recommendedCleanup`'s `sort.Slice` call:
cleanup priority, then risk-tier name, then topic name, ascending. -/
def cleanupLe (a b : reporter.UnusedTopic) : Prop :=
  a.CleanupPriority < b.CleanupPriority ∨ (a.CleanupPriority = b.CleanupPriority ∧
    (a.Risk < b.Risk ∨ (a.Risk = b.Risk ∧ a.Name ≤ b.Name)))

instance : DecidableRel cleanupLe := fun a b => by
  unfold cleanupLe; infer_instance

instance : IsTotal reporter.UnusedTopic cleanupLe := by
  constructor
  intro a b
  rcases lt_trichotomy a.CleanupPriority b.CleanupPriority with h | h | h
  · exact .inl (.inl h)
  · rcases lt_trichotomy a.Risk b.Risk with h' | h' | h'
    · exact .inl (.inr ⟨h, .inl h'⟩)
    · rcases le_total a.Name b.Name with h'' | h''
      · exact .inl (.inr ⟨h, .inr ⟨h', h''⟩⟩)
      · exact .inr (.inr ⟨h.symm, .inr ⟨h'.symm, h''⟩⟩)
    · exact .inr (.inr ⟨h.symm, .inl h'⟩)
  · exact .inr (.inl h)

instance : IsTrans reporter.UnusedTopic cleanupLe := by
  constructor
  intro a b c hab hbc
  rcases hab with h | ⟨hp, hab⟩
  · rcases hbc with h' | ⟨hp', _⟩
    · exact .inl (h.trans h')
    · exact .inl (hp' ▸ h)
  · rcases hbc with h' | ⟨hp', hbc⟩
    · exact .inl (hp ▸ h')
    · refine .inr ⟨hp.trans hp', ?_⟩
      rcases hab with h | ⟨hr, hab⟩
      · rcases hbc with h' | ⟨hr', _⟩
        · exact .inl (h.trans h')
        · exact .inl (hr' ▸ h)
      · rcases hbc with h' | ⟨hr', hbc⟩
        · exact .inl (hr ▸ h')
        · exact .inr ⟨hr.trans hr', hab.trans hbc⟩

/-- `recommendedCleanup` (`cmd/kafkaspectre/main.go`): sort a copy of the
unused findings by `cleanupLe`, truncate to `limit`, return the names. -/
def recommendedCleanup (unused : List reporter.UnusedTopic) (limit : Int) : List Str :=
  if unused = [] || limit ≤ 0 then []
  else
    (((List.insertionSort cleanupLe unused).take limit.toNat).map reporter.UnusedTopic.Name)

/-- Name order on unused-topic findings (`sort.Slice` in
`buildAuditResult`). -/
def unusedNameLe (a b : reporter.UnusedTopic) : Prop := a.Name ≤ b.Name

instance : DecidableRel unusedNameLe := fun a b => by
  unfold unusedNameLe; infer_instance

instance : IsTotal reporter.UnusedTopic unusedNameLe :=
  ⟨fun a b => le_total a.Name b.Name⟩

instance : IsTrans reporter.UnusedTopic unusedNameLe :=
  ⟨fun _ _ _ hab hbc => le_trans hab hbc⟩

/-- Name order on active-topic findings (`sort.Slice` in
`buildAuditResult`). -/
def activeNameLe (a b : reporter.ActiveTopic) : Prop := a.Name ≤ b.Name

instance : DecidableRel activeNameLe := fun a b => by
  unfold activeNameLe; infer_instance

instance : IsTotal reporter.ActiveTopic activeNameLe :=
  ⟨fun a b => le_total a.Name b.Name⟩

instance : IsTrans reporter.ActiveTopic activeNameLe :=
  ⟨fun _ _ _ hab hbc => le_trans hab hbc⟩

/-- The comparator of `buildCheckResult`'s final `sort.Slice` call:
status rank then topic name, ascending.  (The Go comparator tests
`Status != Status` before comparing ranks; distinct statuses with equal
rank would both be unknown values, which `buildCheckResult` never
produces, so comparing ranks first is equivalent on its output.) -/
def checkFindingLe (a b : reporter.CheckFinding) : Prop :=
  checkStatusSortValue a.Status < checkStatusSortValue b.Status ∨
  (checkStatusSortValue a.Status = checkStatusSortValue b.Status ∧ a.Topic ≤ b.Topic)

instance : DecidableRel checkFindingLe := fun a b => by
  unfold checkFindingLe; infer_instance

instance : IsTotal reporter.CheckFinding checkFindingLe := by
  constructor
  intro a b
  rcases lt_trichotomy (checkStatusSortValue a.Status) (checkStatusSortValue b.Status) with h | h | h
  · exact .inl (.inl h)
  · rcases le_total a.Topic b.Topic with h' | h'
    · exact .inl (.inr ⟨h, h'⟩)
    · exact .inr (.inr ⟨h.symm, h'⟩)
  · exact .inr (.inl h)

instance : IsTrans reporter.CheckFinding checkFindingLe := by
  constructor
  intro a b c hab hbc
  rcases hab with h | ⟨hs, hab⟩
  · rcases hbc with h' | ⟨hs', _⟩
    · exact .inl (h.trans h')
    · exact .inl (hs' ▸ h)
  · rcases hbc with h' | ⟨hs', hbc⟩
    · exact .inl (hs ▸ h')
    · exact .inr ⟨hs.trans hs', hab.trans hbc⟩

/-- The topics surviving `buildAuditResult`'s internal and pattern
filtering (the body of the loop past its two `continue`s). -/
def auditIncludedTopics (metadata : kafka.ClusterMetadata) (excludeInternal : Bool)
    (excludeTopics : List Str) : List kafka.TopicInfo :=
  (metadata.Topics.map Prod.snd).filter (fun t =>
    !(t.Internal && excludeInternal) && !shouldExcludeTopic t.Name excludeTopics)

/-- The surviving topics with no consuming group, in input order. -/
def auditUnusedRaw (metadata : kafka.ClusterMetadata) (excludeInternal : Bool)
    (excludeTopics : List Str) : List kafka.TopicInfo :=
  (auditIncludedTopics metadata excludeInternal excludeTopics).filter
    (fun t => (buildConsumersByTopic metadata t.Name).isEmpty)

/-- The surviving topics with at least one consuming group, in input
order. -/
def auditActiveRaw (metadata : kafka.ClusterMetadata) (excludeInternal : Bool)
    (excludeTopics : List Str) : List kafka.TopicInfo :=
  (auditIncludedTopics metadata excludeInternal excludeTopics).filter
    (fun t => !(buildConsumersByTopic metadata t.Name).isEmpty)

/-- The sorted unused-topic findings of `buildAuditResult`. -/
def auditUnusedTopics (metadata : kafka.ClusterMetadata) (excludeInternal : Bool)
    (excludeTopics : List Str) : List reporter.UnusedTopic :=
  List.insertionSort unusedNameLe
    ((auditUnusedRaw metadata excludeInternal excludeTopics).map (fun t =>
      let rp := classifyRisk t
      reporter.BuildUnusedTopic t "No consumer groups found".data
        (recommendationForRisk rp.1) rp.1 rp.2))

/-- The sorted active-topic findings of `buildAuditResult`. -/
def auditActiveTopics (metadata : kafka.ClusterMetadata) (excludeInternal : Bool)
    (excludeTopics : List Str) : List reporter.ActiveTopic :=
  List.insertionSort activeNameLe
    ((auditActiveRaw metadata excludeInternal excludeTopics).map (fun t =>
      reporter.BuildActiveTopic t (buildConsumersByTopic metadata t.Name)))

/-- `buildAuditResult` (`cmd/kafkaspectre/main.go`).  The single Go loop
over `metadata.Topics` is decomposed into equivalent filters (each
counter and list accumulates independently and the output lists are
sorted afterwards, so loop order is immaterial). -/
def buildAuditResult (metadata : kafka.ClusterMetadata) (excludeInternal : Bool)
    (excludeTopics : List Str) : reporter.AuditResult :=
  let topics := metadata.Topics.map Prod.snd
  let internalTopics : Int := ((topics.filter (fun t => t.Internal)).length : Int)
  let included := auditIncludedTopics metadata excludeInternal excludeTopics
  let totalTopics : Int := (included.length : Int)
  let totalPartitions : Int := (included.map kafka.TopicInfo.Partitions).sum
  let unusedRaw := auditUnusedRaw metadata excludeInternal excludeTopics
  let activeRaw := auditActiveRaw metadata excludeInternal excludeTopics
  let unusedTopics := auditUnusedTopics metadata excludeInternal excludeTopics
  let activeTopics := auditActiveTopics metadata excludeInternal excludeTopics
  let unusedPartitions : Int := (unusedRaw.map kafka.TopicInfo.Partitions).sum
  let activePartitions : Int := (activeRaw.map kafka.TopicInfo.Partitions).sum
  let highRisk : Int := ((unusedRaw.filter (fun t => (classifyRisk t).1 = "high".data)).length : Int)
  let mediumRisk : Int := ((unusedRaw.filter (fun t => (classifyRisk t).1 = "medium".data)).length : Int)
  let lowRisk : Int := ((unusedRaw.filter (fun t => (classifyRisk t).1 = "low".data)).length : Int)
  let unusedCount : Int := (unusedTopics.length : Int)
  let activeCount : Int := (activeTopics.length : Int)
  let unusedPercent := percent unusedCount totalTopics
  let unusedPartitionsPercent := percent unusedPartitions totalPartitions
  let internalExcluded : Int := if excludeInternal then internalTopics else 0
  let clusterName : Str := match metadata.Brokers with
    | [] => "unknown".data
    | broker :: _ => broker.Host
  { Summary :=
      { ClusterName := clusterName
        TotalBrokers := (metadata.Brokers.length : Int)
        TotalTopicsIncludingInternal := (metadata.Topics.length : Int)
        TotalTopics := totalTopics
        UnusedTopics := unusedCount
        ActiveTopics := activeCount
        InternalTopics := internalExcluded
        UnusedPercentage := unusedPercent
        TotalPartitions := totalPartitions
        UnusedPartitions := unusedPartitions
        ActivePartitions := activePartitions
        UnusedPartitionsPercent := unusedPartitionsPercent
        TotalConsumerGroups := (metadata.ConsumerGroups.length : Int)
        HighRiskCount := highRisk
        MediumRiskCount := mediumRisk
        LowRiskCount := lowRisk
        RecommendedCleanup := recommendedCleanup unusedTopics 10
        ClusterHealthScore := clusterHealthScore unusedPercent }
    UnusedTopics := unusedTopics
    ActiveTopics := activeTopics
    Metadata := metadata
    TotalTopics := totalTopics
    UnusedCount := unusedCount
    ActiveCount := activeCount
    InternalCount := internalTopics }

/-- The cluster-side topic map of `buildCheckResult` after internal and
pattern filtering (the local `clusterTopics`). -/
def checkClusterTopics (metadata : kafka.ClusterMetadata) (excludeInternal : Bool)
    (excludeTopics : List Str) : List (Str × kafka.TopicInfo) :=
  metadata.Topics.filter (fun p =>
    !(p.2.Internal && excludeInternal) && !shouldExcludeTopic p.1 excludeTopics)

/-- The repository-side topic map of `buildCheckResult` after pattern
filtering (the local `repoTopics`). -/
def checkRepoTopics (scanResult : scanner.Result) (excludeTopics : List Str) :
    List (Str × scanner.TopicReference) :=
  scanResult.Topics.filter (fun p => !shouldExcludeTopic p.1 excludeTopics)

/-- The sorted union of filtered repository and cluster topic names (the
local `names` of `buildCheckResult`). -/
def checkNames (scanResult : scanner.Result) (metadata : kafka.ClusterMetadata)
    (excludeInternal : Bool) (excludeTopics : List Str) : List Str :=
  List.insertionSort (· ≤ ·)
    (((checkRepoTopics scanResult excludeTopics).map Prod.fst ++
      (checkClusterTopics metadata excludeInternal excludeTopics).map Prod.fst).dedup)

/-- The finding `buildCheckResult`'s per-name loop constructs for one
topic name. -/
def checkFindingFor (scanResult : scanner.Result) (metadata : kafka.ClusterMetadata)
    (excludeInternal : Bool) (excludeTopics : List Str) (topic : Str) :
    reporter.CheckFinding :=
  let repoRef := assocFind (checkRepoTopics scanResult excludeTopics) topic
  let referencedInRepo := repoRef.isSome
  let inCluster := (assocFind (checkClusterTopics metadata excludeInternal excludeTopics) topic).isSome
  let consumerGroups := buildConsumersByTopic metadata topic
  let hasConsumers := inCluster && !consumerGroups.isEmpty
  let sr := classifyCheckStatus referencedInRepo inCluster hasConsumers
  { Topic := topic
    Status := sr.1
    ReferencedInRepo := referencedInRepo
    InCluster := inCluster
    ConsumerGroups := consumerGroups
    References := match repoRef with
      | some ref => convertCheckReferences ref.Occurrences
      | none => []
    Reason := sr.2 }

/-- `buildCheckResult` (`cmd/kafkaspectre/main.go`): filter both sides,
take the sorted union of names, classify each name, then sort the
findings by status rank and name. -/
def buildCheckResult (scanResult : scanner.Result) (metadata : kafka.ClusterMetadata)
    (excludeInternal : Bool) (excludeTopics : List Str) : reporter.CheckResult :=
  let names := checkNames scanResult metadata excludeInternal excludeTopics
  let findings := names.map (checkFindingFor scanResult metadata excludeInternal excludeTopics)
  { Summary :=
      { RepoPath := scanResult.RepoPath
        FilesScanned := scanResult.FilesScanned
        RepoTopics := ((checkRepoTopics scanResult excludeTopics).length : Int)
        ClusterTopics := ((checkClusterTopics metadata excludeInternal excludeTopics).length : Int)
        TotalFindings := (names.length : Int)
        OKCount := ((findings.filter
          (fun f => f.Status = reporter.CheckStatusOK)).length : Int)
        MissingInClusterCount := ((findings.filter
          (fun f => f.Status = reporter.CheckStatusMissingInCluster)).length : Int)
        UnreferencedInRepoCount := ((findings.filter
          (fun f => f.Status = reporter.CheckStatusUnreferencedInRepo)).length : Int)
        UnusedCount := ((findings.filter
          (fun f => f.Status = reporter.CheckStatusUnused)).length : Int) }
    Findings := List.insertionSort checkFindingLe findings }

/- ---------------------------------------------------------------------
Configuration parser: `internal/config` (`parse` and its helpers).
--------------------------------------------------------------------- -/

namespace config

/-- `config.Config`.  `Timeout` is a Go `time.Duration` in nanoseconds. -/
structure Config where
  BootstrapServers : Str := []
  AuthMechanism : Str := []
  ExcludeTopics : List Str := []
  ExcludeInternal : Option Bool := none
  Format : Str := []
  Timeout : Int := 0
  HasTimeout : Bool := false
deriving DecidableEq

/-- A line-numbered parse failure (Go wraps every error produced by
`parse` in `fmt.Errorf("line %d: ...")`; the embedding keeps the line
number as a structured field). -/
structure ParseErr where
  line : Nat
  msg : String
deriving DecidableEq

/-- The characters Go `strings.TrimSpace` removes (`unicode.IsSpace`,
restricted to the Latin-1 range; the higher Unicode space code points do
not occur in the inputs considered here). -/
def isGoSpace (c : Char) : Bool :=
  c = ' ' || c = '\t' || c = '\n' || c = '\x0b' || c = '\x0c' || c = '\r' ||
  c = '\u0085' || c = '\u00A0'

/-- Go `strings.TrimSpace`. -/
def trimSpace (s : Str) : Str :=
  ((s.dropWhile isGoSpace).reverse.dropWhile isGoSpace).reverse

/-- Go `strings.TrimRight(s, "\r")`. -/
def trimRightCR (s : Str) : Str :=
  (s.reverse.dropWhile (fun c => c = '\r')).reverse

/-- Go `strings.TrimLeft(s, " \t")`. -/
def trimLeftSpaceTab (s : Str) : Str :=
  s.dropWhile (fun c => c = ' ' || c = '\t')

/-- Does the (already trimmed) line start with `-`? -/
def dashFirst : Str → Bool
  | '-' :: _ => true
  | _ => false

/-- Go `strings.Cut(line, ":")`: split at the first colon. -/
def splitFirstColon : Str → Option (Str × Str)
  | [] => none
  | ':' :: rest => some ([], rest)
  | c :: rest =>
    match splitFirstColon rest with
    | none => none
    | some (a, b) => some (c :: a, b)

/-- `config.stripInlineComment`: cut the line at the first `#` that is
outside single/double quotes (tracking a backslash escape inside double
quotes). -/
def stripInlineComment (s : Str) : Str :=
  go s false false false
where
  go : Str → Bool → Bool → Bool → Str
    | [], _, _, _ => []
    | c :: rest, inSingle, inDouble, escaped =>
      if escaped then c :: go rest inSingle inDouble false
      else if c = '\\' && inDouble then c :: go rest inSingle inDouble true
      else if c = '\'' && !inDouble then c :: go rest (!inSingle) inDouble false
      else if c = '"' && !inSingle then c :: go rest inSingle (!inDouble) false
      else if c = '#' && !inSingle && !inDouble then []
      else c :: go rest inSingle inDouble false

/-- Go `strings.Split(text, "\n")`. -/
def splitLines : Str → List Str
  | [] => [[]]
  | c :: rest =>
    match splitLines rest with
    | [] => [[c]]
    | l :: ls => if c = '\n' then [] :: l :: ls else (c :: l) :: ls

/-- Go `strings.TrimPrefix(text, "\uFEFF")`: strip one leading
byte-order mark. -/
def stripBOM : Str → Str
  | '\uFEFF' :: rest => rest
  | s => s

/-- Numeric value of one hex digit. -/
def hexVal (c : Char) : Option Nat :=
  if '0' ≤ c && c ≤ '9' then some (c.toNat - 48)
  else if 'a' ≤ c && c ≤ 'f' then some (c.toNat - 87)
  else if 'A' ≤ c && c ≤ 'F' then some (c.toNat - 70)
  else none

/-- Read exactly `n` hex digits. -/
def readHex : Nat → Str → Option (Nat × Str)
  | 0, s => some (0, s)
  | n + 1, [] => (fun _ => none) n
  | n + 1, c :: rest =>
    match hexVal c with
    | none => none
    | some v =>
      match readHex n rest with
      | none => none
      | some (w, s') => some (v * 16 ^ n + w, s')

/-- Numeric value of one octal digit. -/
def octVal (c : Char) : Option Nat :=
  if '0' ≤ c && c ≤ '7' then some (c.toNat - 48) else none

/-- Model of the body of Go `strconv.Unquote` for a double-quoted
string: process escapes, reject raw newlines, interior unescaped quotes
and malformed escapes.  (`\xHH` and octal escapes denote single bytes in
Go; the embedding maps them to the code point of the same value.) -/
def unquoteBody : Nat → Str → Option Str
  | 0, _ => none
  | _ + 1, [] => some []
  | _ + 1, '"' :: _ => none
  | _ + 1, '\n' :: _ => none
  | fuel + 1, '\\' :: esc =>
    (match esc with
     | 'a' :: rest => (unquoteBody fuel rest).map (fun t => '\x07' :: t)
     | 'b' :: rest => (unquoteBody fuel rest).map (fun t => '\x08' :: t)
     | 'f' :: rest => (unquoteBody fuel rest).map (fun t => '\x0c' :: t)
     | 'n' :: rest => (unquoteBody fuel rest).map (fun t => '\n' :: t)
     | 'r' :: rest => (unquoteBody fuel rest).map (fun t => '\r' :: t)
     | 't' :: rest => (unquoteBody fuel rest).map (fun t => '\t' :: t)
     | 'v' :: rest => (unquoteBody fuel rest).map (fun t => '\x0b' :: t)
     | '\\' :: rest => (unquoteBody fuel rest).map (fun t => '\\' :: t)
     | '"' :: rest => (unquoteBody fuel rest).map (fun t => '"' :: t)
     | 'x' :: rest =>
       match readHex 2 rest with
       | none => none
       | some (v, rest') => (unquoteBody fuel rest').map (fun t => Char.ofNat v :: t)
     | 'u' :: rest =>
       match readHex 4 rest with
       | none => none
       | some (v, rest') =>
         if v.isValidChar then (unquoteBody fuel rest').map (fun t => Char.ofNat v :: t)
         else none
     | 'U' :: rest =>
       match readHex 8 rest with
       | none => none
       | some (v, rest') =>
         if v.isValidChar then (unquoteBody fuel rest').map (fun t => Char.ofNat v :: t)
         else none
     | d0 :: d1 :: d2 :: rest =>
       match octVal d0, octVal d1, octVal d2 with
       | some o0, some o1, some o2 =>
         let v := o0 * 64 + o1 * 8 + o2
         if v < 256 then (unquoteBody fuel rest).map (fun t => Char.ofNat v :: t)
         else none
       | _, _, _ => none
     | _ => none)
  | fuel + 1, c :: rest => (unquoteBody fuel rest).map (fun t => c :: t)

/-- `config.parseScalar`: trim, then unwrap a fully double-quoted value
with Go unquoting, a fully single-quoted value verbatim, reject
unbalanced quoting, and return anything else as-is.  The error payloads
mirror Go's (`strconv.ErrSyntax` prints as "invalid syntax"). -/
def parseScalar (value : Str) : Except String Str :=
  let v := trimSpace value
  if v = [] then .ok []
  else if 2 ≤ v.length && v.head? = some '"' && v.getLast? = some '"' then
    match unquoteBody (v.length + 1) (v.drop 1).dropLast with
    | some t => .ok t
    | none => .error "invalid syntax"
  else if 2 ≤ v.length && v.head? = some '\'' && v.getLast? = some '\'' then
    .ok (v.drop 1).dropLast
  else if v.head? = some '\'' || v.head? = some '"' ||
          v.getLast? = some '\'' || v.getLast? = some '"' then
    .error "unterminated quoted string"
  else .ok v

/-- Model of Go `strconv.ParseBool`. -/
def goParseBool (s : Str) : Option Bool :=
  if s = "1".data || s = "t".data || s = "T".data || s = "TRUE".data ||
     s = "true".data || s = "True".data then some true
  else if s = "0".data || s = "f".data || s = "F".data || s = "FALSE".data ||
          s = "false".data || s = "False".data then some false
  else none

/-- Unit suffix of a duration term (nanosecond multiplier). -/
def durUnit : Str → Option (Int × Str)
  | 'n' :: 's' :: rest => some (1, rest)
  | 'u' :: 's' :: rest => some (1000, rest)
  | 'µ' :: 's' :: rest => some (1000, rest)
  | 'μ' :: 's' :: rest => some (1000, rest)
  | 'm' :: 's' :: rest => some (1000000, rest)
  | 's' :: rest => some (1000000000, rest)
  | 'm' :: rest => some (60000000000, rest)
  | 'h' :: rest => some (3600000000000, rest)
  | _ => none

/-- One `digits[.digits]unit` term of a duration.  The fractional part
is scaled by the unit and truncated. -/
def durTerm (s : Str) : Option (Int × Str) :=
  let intDigits := s.takeWhile (fun c => '0' ≤ c && c ≤ '9')
  let rest := s.dropWhile (fun c => '0' ≤ c && c ≤ '9')
  let (fracDigits, rest') :=
    match rest with
    | '.' :: r => (r.takeWhile (fun c => '0' ≤ c && c ≤ '9'),
                   r.dropWhile (fun c => '0' ≤ c && c ≤ '9'))
    | r => ([], r)
  if intDigits = [] && fracDigits = [] then none
  else
    match rest with
    | '.' :: _ =>
      if fracDigits = [] then none
      else
        match durUnit rest' with
        | none => none
        | some (unit, rest'') =>
          some ((natOfDigits intDigits : Int) * unit +
                ((natOfDigits fracDigits : Int) * unit) / (10 ^ fracDigits.length : Nat),
                rest'')
    | _ =>
      match durUnit rest' with
      | none => none
      | some (unit, rest'') => some ((natOfDigits intDigits : Int) * unit, rest'')

/-- Remaining terms of a duration (fuelled; each term consumes at least
one character). -/
def durTerms : Nat → Str → Option Int
  | 0, _ => none
  | _ + 1, [] => some 0
  | fuel + 1, s =>
    match durTerm s with
    | none => none
    | some (v, rest) =>
      if rest.length < s.length then
        match durTerms fuel rest with
        | none => none
        | some w => some (v + w)
      else none

/-- Model of Go `time.ParseDuration` (without overflow handling):
an optional sign, the literal `0`, or one or more `digits[.digits]unit`
terms summed in nanoseconds. -/
def goParseDuration (s : Str) : Option Int :=
  let (neg, body) :=
    match s with
    | '-' :: rest => (true, rest)
    | '+' :: rest => (false, rest)
    | rest => (false, rest)
  if body = "0".data then some 0
  else if body = [] then none
  else
    match durTerms (body.length + 1) body with
    | none => none
    | some v => some (if neg then -v else v)

/-- Go `strings.ToLower` (ASCII; no other letters occur here). -/
def toLowerStr (s : Str) : Str := s.map Char.toLower

/-- `config.normalizeList`: trim every entry, drop blanks, and collapse
an all-blank result to "no list". -/
def normalizeList (items : List Str) : List Str :=
  if items = [] then []
  else
    let out := (items.map trimSpace).filter (fun item => !(item = []))
    if out = [] then [] else out

/-- `config.splitCSV`: split on commas outside single/double quotes,
tracking backslash escapes inside double quotes; unterminated quotes are
an error. -/
def splitCSV (input : Str) : Except String (List Str) :=
  go input [] false false false
where
  go : Str → Str → Bool → Bool → Bool → Except String (List Str)
    | [], cur, inSingle, inDouble, _ =>
      if inSingle || inDouble then .error "unterminated quoted string in inline list"
      else .ok [cur.reverse]
    | c :: rest, cur, inSingle, inDouble, escaped =>
      if escaped then go rest (c :: cur) inSingle inDouble false
      else if c = '\\' && inDouble then go rest (c :: cur) inSingle inDouble true
      else if c = '\'' && !inDouble then go rest (c :: cur) (!inSingle) inDouble false
      else if c = '"' && !inSingle then go rest (c :: cur) inSingle (!inDouble) false
      else if c = ',' && !inSingle && !inDouble then
        match go rest [] inSingle inDouble escaped with
        | .error e => .error e
        | .ok parts => .ok (cur.reverse :: parts)
      else go rest (c :: cur) inSingle inDouble false

/-- `config.parseInlineList`: a bare scalar is a one-element list; a
`[...]` value is comma-split with quote awareness and each part
scalar-parsed. -/
def parseInlineList (value : Str) : Except String (List Str) :=
  let v := trimSpace value
  if v = [] then .ok []
  else if v.head? ≠ some '[' then
    match parseScalar v with
    | .error e => .error e
    | .ok scalar => .ok [scalar]
  else if v.getLast? ≠ some ']' then .error "inline list must end with ]"
  else
    let inner := trimSpace (v.drop 1).dropLast
    if inner = [] then .ok []
    else
      match splitCSV inner with
      | .error e => .error e
      | .ok parts =>
        parts.foldr
          (fun part acc =>
            match acc with
            | .error e => .error e
            | .ok items =>
              match parseScalar part with
              | .error e => .error e
              | .ok scalar => .ok (scalar :: items))
          (.ok [])

/-- `config.parseBlockList`, recast from index form to list form: consume
block-list items from `lines` (whose first line is line number `n`),
returning the items, the unconsumed remainder, and the remainder's first
line number.  The terminating unindented line is returned unconsumed, to
be reprocessed by the caller. -/
def parseBlockList : List Str → Nat → Except ParseErr (List Str × List Str × Nat)
  | [], n => .ok ([], [], n)
  | l :: rest, n =>
    let line := stripInlineComment (trimRightCR l)
    let trimmed := trimSpace line
    if trimmed = [] then parseBlockList rest (n + 1)
    else if line = trimLeftSpaceTab line then .ok ([], l :: rest, n)
    else
      let item := trimLeftSpaceTab line
      if !dashFirst item then .error ⟨n, "invalid list item for exclude_topics"⟩
      else
        let item' := trimSpace (item.drop 1)
        if item' = [] then .error ⟨n, "empty list item for exclude_topics"⟩
        else
          match parseScalar item' with
          | .error e => .error ⟨n, "parse exclude_topics item: " ++ e⟩
          | .ok scalar =>
            match parseBlockList rest (n + 1) with
            | .error e => .error e
            | .ok (items, rem, m) => .ok (scalar :: items, rem, m)

/-- The error message for an unrecognized top-level key (Go
`fmt.Errorf("line %d: unknown key %q", ...)`; `%q` modelled as plain
quoting). -/
def unknownKeyMsg (key : Str) : String :=
  "unknown key \"" ++ String.mk key ++ "\""

/-- The main loop of `config.parse`, fuelled for structural recursion:
each step consumes at least one input line, so fuel `lines.length + 1`
(as supplied by `parse`) can never run out. -/
def parseLinesF : Nat → List Str → Nat → Config → Except ParseErr Config
  | 0, _, _, _ => .error ⟨0, "out of fuel"⟩
  | _ + 1, [], _, cfg => .ok cfg
  | fuel + 1, l :: rest, n, cfg =>
    let line := stripInlineComment (trimRightCR l)
    let trimmed := trimSpace line
    if trimmed = [] then parseLinesF fuel rest (n + 1) cfg
    else if dashFirst trimmed then .error ⟨n, "unexpected list item"⟩
    else
      match splitFirstColon line with
      | none => .error ⟨n, "expected key: value"⟩
      | some (keyPart, valuePart) =>
        if trimSpace keyPart = "bootstrap_servers".data then
          match parseScalar (trimSpace valuePart) with
          | .error e => .error ⟨n, "parse bootstrap_servers: " ++ e⟩
          | .ok scalar =>
            parseLinesF fuel rest (n + 1) { cfg with BootstrapServers := trimSpace scalar }
        else if trimSpace keyPart = "auth_mechanism".data then
          match parseScalar (trimSpace valuePart) with
          | .error e => .error ⟨n, "parse auth_mechanism: " ++ e⟩
          | .ok scalar =>
            parseLinesF fuel rest (n + 1) { cfg with AuthMechanism := trimSpace scalar }
        else if trimSpace keyPart = "exclude_topics".data then
          if trimSpace valuePart = [] then
            match parseBlockList rest (n + 1) with
            | .error e => .error e
            | .ok (items, rem, m) =>
              parseLinesF fuel rem m { cfg with ExcludeTopics := cfg.ExcludeTopics ++ items }
          else
            match parseInlineList (trimSpace valuePart) with
            | .error e => .error ⟨n, "parse exclude_topics: " ++ e⟩
            | .ok items =>
              parseLinesF fuel rest (n + 1) { cfg with ExcludeTopics := cfg.ExcludeTopics ++ items }
        else if trimSpace keyPart = "exclude_internal".data then
          match parseScalar (trimSpace valuePart) with
          | .error e => .error ⟨n, "parse exclude_internal: " ++ e⟩
          | .ok scalar =>
            match goParseBool (trimSpace scalar) with
            | none => .error ⟨n, "parse exclude_internal as bool: invalid syntax"⟩
            | some b => parseLinesF fuel rest (n + 1) { cfg with ExcludeInternal := some b }
        else if trimSpace keyPart = "format".data then
          match parseScalar (trimSpace valuePart) with
          | .error e => .error ⟨n, "parse format: " ++ e⟩
          | .ok scalar =>
            parseLinesF fuel rest (n + 1) { cfg with Format := toLowerStr (trimSpace scalar) }
        else if trimSpace keyPart = "timeout".data then
          match parseScalar (trimSpace valuePart) with
          | .error e => .error ⟨n, "parse timeout: " ++ e⟩
          | .ok scalar =>
            match goParseDuration (trimSpace scalar) with
            | none => .error ⟨n, "parse timeout as duration: invalid duration"⟩
            | some d =>
              parseLinesF fuel rest (n + 1) { cfg with Timeout := d, HasTimeout := true }
        else .error ⟨n, unknownKeyMsg (trimSpace keyPart)⟩

/-- `config.parse`: strip the byte-order mark, split into lines, run the
main loop, and normalize the exclusion list. -/
def parse (data : Str) : Except ParseErr Config :=
  let lines := splitLines (stripBOM data)
  match parseLinesF (lines.length + 1) lines 1 {} with
  | .error e => .error e
  | .ok cfg => .ok { cfg with ExcludeTopics := normalizeList cfg.ExcludeTopics }

end config

/- ---------------------------------------------------------------------
Auxiliary definitions used by the theorems below.
--------------------------------------------------------------------- -/

namespace config

/-- The six recognized top-level configuration keys. -/
def recognizedKeys : List Str :=
  ["bootstrap_servers".data, "auth_mechanism".data, "exclude_topics".data,
   "exclude_internal".data, "format".data, "timeout".data]

/-- When the given raw line would be processed as a top-level key line
whose key is unrecognized, return that key. -/
def lineUnknownKey (l : Str) : Option Str :=
  if trimSpace (stripInlineComment (trimRightCR l)) = [] then none
  else if dashFirst (trimSpace (stripInlineComment (trimRightCR l))) then none
  else
    match splitFirstColon (stripInlineComment (trimRightCR l)) with
    | none => none
    | some (keyPart, _) =>
      if trimSpace keyPart ∈ recognizedKeys then none
      else some (trimSpace keyPart)

/-- Mirror of `parseLinesF`'s traversal that checks that every line
processed as a top-level key line carries a recognized key.  Lines on
which `parseLinesF` fails for a different reason (list items, missing
colons, scalar errors) contribute `true`: no unknown key is processed
there. -/
def keysOK : Nat → List Str → Nat → Bool
  | 0, _, _ => false
  | _ + 1, [], _ => true
  | fuel + 1, l :: rest, n =>
    let line := stripInlineComment (trimRightCR l)
    let trimmed := trimSpace line
    if trimmed = [] then keysOK fuel rest (n + 1)
    else if dashFirst trimmed then true
    else
      match splitFirstColon line with
      | none => true
      | some (keyPart, valuePart) =>
        if trimSpace keyPart ∈ recognizedKeys then
          if trimSpace keyPart = "exclude_topics".data && trimSpace valuePart = [] then
            match parseBlockList rest (n + 1) with
            | .error _ => true
            | .ok (_, rem, m) => keysOK fuel rem m
          else keysOK fuel rest (n + 1)
        else false

/-- A raw line after carriage-return trimming and comment stripping. -/
def processedLine (l : Str) : Str := stripInlineComment (trimRightCR l)

/-- Is the line blank once processed? -/
def blockBlank (l : Str) : Bool := trimSpace (processedLine l) = []

/-- Does the processed line carry any leading space or tab? -/
def blockIndented (l : Str) : Bool :=
  !(processedLine l = trimLeftSpaceTab (processedLine l))

/-- The scalar-parsed list item a consumed block-list line contributes
(`none` for blank lines and for lines whose item fails to parse). -/
def blockItemOf (l : Str) : Option Str :=
  if blockBlank l then none
  else
    match parseScalar (trimSpace ((trimLeftSpaceTab (processedLine l)).drop 1)) with
    | .ok scalar => some scalar
    | .error _ => none

end config

namespace reporter

/-- The retention humanization described by the specification's wording:
the parsed value is converted, as milliseconds and without any overflow,
to whole days (`ms / 86400000` truncated), leftover whole hours, whole
minutes, or a literal millisecond count.  Defined for comparison with
`FormatRetentionMs`, which follows the code. -/
def specFormatRetentionMs (retentionMs : Str) : Str :=
  if retentionMs = [] || retentionMs = "-1".data then "infinite".data
  else
    match goParseInt64 retentionMs with
    | none => retentionMs
    | some ms =>
      let days := ms.tdiv 86400000
      let hours := (ms.tdiv 3600000).tmod 24
      let minutes := ms.tdiv 60000
      if 0 < days then
        if 0 < hours then
          intToStr days ++ " days ".data ++ intToStr hours ++ " hours".data
        else
          intToStr days ++ " days".data
      else if 0 < hours then
        intToStr hours ++ " hours".data
      else if 0 < minutes then
        intToStr minutes ++ " minutes".data
      else
        intToStr ms ++ " ms".data

end reporter

/-- "Survives exclusion filtering" for a topic record in `buildAuditResult`:
not dropped by the internal-topic switch and not dropped by an exclude
pattern. -/
def auditIncluded (metadata : kafka.ClusterMetadata) (excludeInternal : Bool)
    (excludeTopics : List Str) (t : kafka.TopicInfo) : Prop :=
  t ∈ metadata.Topics.map Prod.snd ∧
  ¬(t.Internal = true ∧ excludeInternal = true) ∧
  shouldExcludeTopic t.Name excludeTopics = false

/-- The partition property of `buildAuditResult` (claim C2's conclusion):
the unused list holds exactly the surviving topics with no consuming
group, the active list exactly those with at least one, the two lists are
disjoint, and each lists every name once. -/
def auditPartitionHolds (metadata : kafka.ClusterMetadata) (excludeInternal : Bool)
    (excludeTopics : List Str) : Prop :=
  (∀ nm : Str,
    (nm ∈ (buildAuditResult metadata excludeInternal excludeTopics).UnusedTopics.map
        reporter.UnusedTopic.Name ↔
      ∃ t, auditIncluded metadata excludeInternal excludeTopics t ∧ t.Name = nm ∧
        buildConsumersByTopic metadata nm = []) ∧
    (nm ∈ (buildAuditResult metadata excludeInternal excludeTopics).ActiveTopics.map
        reporter.ActiveTopic.Name ↔
      ∃ t, auditIncluded metadata excludeInternal excludeTopics t ∧ t.Name = nm ∧
        buildConsumersByTopic metadata nm ≠ []) ∧
    ¬(nm ∈ (buildAuditResult metadata excludeInternal excludeTopics).UnusedTopics.map
        reporter.UnusedTopic.Name ∧
      nm ∈ (buildAuditResult metadata excludeInternal excludeTopics).ActiveTopics.map
        reporter.ActiveTopic.Name)) ∧
  ((buildAuditResult metadata excludeInternal excludeTopics).UnusedTopics.map
      reporter.UnusedTopic.Name).Nodup ∧
  ((buildAuditResult metadata excludeInternal excludeTopics).ActiveTopics.map
      reporter.ActiveTopic.Name).Nodup

/- ---------------------------------------------------------------------
Theorems.
--------------------------------------------------------------------- -/

/-- C3: for every triple of booleans, `classifyCheckStatus` evaluates
the four rules in order with first match winning: referenced-and-absent
gives `MissingInCluster`; in-cluster-without-consumers gives `Unused`
with the reason depending on repository reference; unreferenced-but-
present (with consumers) gives `UnreferencedInRepo`; the remaining case
gives `OK` — each with exactly the claimed reason string. -/
theorem classifyCheckStatus_rules (referencedInRepo inCluster hasConsumers : Bool) :
    classifyCheckStatus referencedInRepo inCluster hasConsumers =
      (if referencedInRepo = true ∧ inCluster = false then
        (reporter.CheckStatusMissingInCluster,
         "topic is referenced in code but does not exist in cluster".data)
      else if inCluster = true ∧ hasConsumers = false then
        (reporter.CheckStatusUnused,
         if referencedInRepo = true then
           "topic is referenced in code and exists in cluster but has no active consumer groups".data
         else
           "topic exists in cluster but has no active consumer groups".data)
      else if referencedInRepo = false ∧ inCluster = true then
        (reporter.CheckStatusUnreferencedInRepo,
         "topic exists in cluster with consumers but was not found in repository".data)
      else
        (reporter.CheckStatusOK,
         "topic exists in cluster and has active consumers".data)) := by
  cases referencedInRepo <;> cases inCluster <;> cases hasConsumers <;> rfl

/-- C4: the risk classifier returns `("high", 3)` when partitions ≥ 10 or
replication ≥ 3, else `("medium", 2)` when partitions ≥ 2 or replication
= 2, else `("low", 1)`, rules evaluated in order — together with the
claim's sample points (in particular partitions=1, replication=3 is high
and partitions=1, replication=1 is low). -/
theorem classifyRisk_rules :
    (∀ (name : Str) (p rf : Int) (cfgm : List (Str × Str)) (intl : Bool),
      classifyRisk ⟨name, p, rf, cfgm, intl⟩ =
        if 10 ≤ p ∨ 3 ≤ rf then ("high".data, 3)
        else if 2 ≤ p ∨ rf = 2 then ("medium".data, 2)
        else ("low".data, 1)) ∧
    classifyRisk ⟨[], 10, 1, [], false⟩ = ("high".data, 3) ∧
    classifyRisk ⟨[], 2, 1, [], false⟩ = ("medium".data, 2) ∧
    classifyRisk ⟨[], 1, 1, [], false⟩ = ("low".data, 1) ∧
    classifyRisk ⟨[], 1, 3, [], false⟩ = ("high".data, 3) := by
  refine ⟨?_, by decide, by decide, by decide, by decide⟩
  intro name p rf cfgm intl
  simp only [classifyRisk, Bool.or_eq_true, decide_eq_true_eq]

/-- `(↑m).tdiv ↑n` is Nat division, by computation. -/
theorem natCast_tdiv (m n : Nat) : ((m : Int)).tdiv (n : Int) = ((m / n : Nat) : Int) := rfl

/-- Truncated division is invariant under scaling numerator and divisor
by the same positive factor. -/
theorem tdiv_mul_cancel_right (a : Int) (b k : Nat) (hk : 0 < k) :
    (a * (k : Int)).tdiv ((b : Int) * (k : Int)) = a.tdiv (b : Int) := by
  cases a with
  | ofNat m =>
    have hm : (Int.ofNat m) = ((m : Nat) : Int) := rfl
    rw [hm, ← Nat.cast_mul, ← Nat.cast_mul, natCast_tdiv, natCast_tdiv,
      Nat.mul_div_mul_right m b hk]
  | negSucc m =>
    have h1 : (Int.negSucc m) = -((m + 1 : Nat) : Int) := by
      rw [Int.negSucc_eq]; push_cast; ring
    rw [h1, neg_mul, Int.neg_tdiv, Int.neg_tdiv, ← Nat.cast_mul, ← Nat.cast_mul,
      natCast_tdiv, natCast_tdiv, Nat.mul_div_mul_right (m + 1) b hk]

/-- `wrap64` is the identity on values in the signed 64-bit range. -/
theorem wrap64_eq_self (x : Int) (h1 : -(2 ^ 63) ≤ x) (h2 : x < 2 ^ 63) :
    wrap64 x = x := by
  have h63 : (2 : Int) ^ 63 = 9223372036854775808 := by norm_num
  have h64 : (2 : Int) ^ 64 = 18446744073709551616 := by norm_num
  unfold wrap64
  rw [Int.emod_eq_of_lt (by omega) (by omega)]
  omega

/-- C8 (corrected): the humanizer returns "infinite" for `""`/`"-1"`,
echoes non-integers verbatim, and — for every value whose nanosecond
equivalent `ms * 10^6` fits in a signed 64-bit integer — converts the
milliseconds to whole days / leftover hours / whole minutes / literal
milliseconds exactly as the claim describes (`specFormatRetentionMs`);
the claim's sample points hold.  Outside that range the multiplication
by `time.Millisecond` wraps (see the counterexample). -/
theorem FormatRetentionMs_spec (s : Str) :
    ((s = [] ∨ s = "-1".data) → reporter.FormatRetentionMs s = "infinite".data) ∧
    (s ≠ [] → s ≠ "-1".data → goParseInt64 s = none → reporter.FormatRetentionMs s = s) ∧
    (∀ ms : Int, goParseInt64 s = some ms → -(2 ^ 63) ≤ ms * 1000000 →
      ms * 1000000 < 2 ^ 63 →
      reporter.FormatRetentionMs s = reporter.specFormatRetentionMs s) ∧
    reporter.FormatRetentionMs "3600000".data = "1 hours".data ∧
    reporter.FormatRetentionMs "90000000".data = "1 days 1 hours".data ∧
    reporter.FormatRetentionMs "500".data = "500 ms".data ∧
    reporter.FormatRetentionMs "abc".data = "abc".data ∧
    reporter.FormatRetentionMs "-1".data = "infinite".data := by
  refine ⟨?_, ?_, ?_, by decide, by decide, by decide, by decide, by decide⟩
  · intro h
    rcases h with h | h <;> simp [reporter.FormatRetentionMs, h]
  · intro h1 h2 h3
    simp [reporter.FormatRetentionMs, h1, h2, h3]
  · intro ms hms hlo hhi
    by_cases hinf : s = [] ∨ s = "-1".data
    · rcases hinf with h | h <;>
        simp [reporter.FormatRetentionMs, reporter.specFormatRetentionMs, h]
    · push_neg at hinf
      have e1 : wrap64 (ms * 1000000) = ms * 1000000 := wrap64_eq_self _ hlo hhi
      have hk : (0 : Nat) < 1000000 := by norm_num
      have ecast : ((1000000 : Int)) = ((1000000 : Nat) : Int) := by norm_num
      have d1 : (ms * 1000000).tdiv 86400000000000 = ms.tdiv 86400000 := by
        rw [show ((86400000000000 : Int)) = ((86400000 : Nat) : Int) * ((1000000 : Nat) : Int)
              by norm_num,
            ecast, tdiv_mul_cancel_right ms 86400000 1000000 hk]
        norm_num
      have d2 : (ms * 1000000).tdiv 3600000000000 = ms.tdiv 3600000 := by
        rw [show ((3600000000000 : Int)) = ((3600000 : Nat) : Int) * ((1000000 : Nat) : Int)
              by norm_num,
            ecast, tdiv_mul_cancel_right ms 3600000 1000000 hk]
        norm_num
      have d3 : (ms * 1000000).tdiv 60000000000 = ms.tdiv 60000 := by
        rw [show ((60000000000 : Int)) = ((60000 : Nat) : Int) * ((1000000 : Nat) : Int)
              by norm_num,
            ecast, tdiv_mul_cancel_right ms 60000 1000000 hk]
        norm_num
      simp only [reporter.FormatRetentionMs, reporter.specFormatRetentionMs, hms, e1, d1, d2, d3]

/-- C8 counterexample: at `"10000000000000000"` (10^16 ms ≈ 317 years)
the nanosecond multiplication overflows `int64`, so the code prints the
wrapped duration "21582 days 7 hours", not the exact conversion
"115740740 days 17 hours" the claim describes. -/
theorem FormatRetentionMs_overflow_counterexample :
    reporter.FormatRetentionMs "10000000000000000".data = "21582 days 7 hours".data ∧
    reporter.specFormatRetentionMs "10000000000000000".data = "115740740 days 17 hours".data ∧
    reporter.FormatRetentionMs "10000000000000000".data ≠
      reporter.specFormatRetentionMs "10000000000000000".data := by
  exact ⟨by decide, by decide, by decide⟩

/-- C8 witness for `FormatRetentionMs_spec`: at `"3600000"` the parsed
value is in range and the code and claim-side conversions agree on
"1 hours". -/
theorem FormatRetentionMs_spec_witness :
    goParseInt64 "3600000".data = some 3600000 ∧
    reporter.FormatRetentionMs "3600000".data =
      reporter.specFormatRetentionMs "3600000".data :=
  ⟨by decide,
   (FormatRetentionMs_spec "3600000".data).2.2.1 3600000 (by decide) (by decide) (by decide)⟩

/-- C9: `recommendedCleanup` returns the names of the findings sorted by
cleanup priority, then risk-tier name, then topic name (all ascending),
truncated to the first `limit`; a non-positive `limit` truncates to the
empty list and a `limit` at or above the number of findings keeps all of
them (`take` of the whole list). -/
theorem recommendedCleanup_sorted_take (unused : List reporter.UnusedTopic) (limit : Int) :
    ∃ sorted : List reporter.UnusedTopic,
      unused.Perm sorted ∧ List.Pairwise cleanupLe sorted ∧
      recommendedCleanup unused limit =
        (sorted.map reporter.UnusedTopic.Name).take limit.toNat := by
  refine ⟨List.insertionSort cleanupLe unused, (List.perm_insertionSort _ _).symm,
    List.sorted_insertionSort _ _, ?_⟩
  unfold recommendedCleanup
  by_cases h0 : unused = []
  · subst h0; simp [List.insertionSort]
  · by_cases hl : limit ≤ 0
    · have ht : limit.toNat = 0 := by omega
      simp [h0, hl, ht]
    · simp [h0, hl, List.map_take]

/-- A key has a binding in an association list iff `assocFind` succeeds. -/
theorem assocFind_isSome_iff {β : Type} (m : List (Str × β)) (k : Str) :
    (assocFind m k).isSome = true ↔ ∃ v, (k, v) ∈ m := by
  unfold assocFind
  cases h : m.find? (fun p => p.1 = k) with
  | some p =>
    simp only [Option.isSome_some, true_iff]
    have hp0 := List.find?_some h
    have hp : p.1 = k := by simpa using hp0
    have hmem := List.mem_of_find?_eq_some h
    exact ⟨p.2, by rw [← hp]; exact hmem⟩
  | none =>
    simp only [Option.isSome_none, Bool.false_eq_true, false_iff]
    rintro ⟨v, hv⟩
    have := List.find?_eq_none.mp h _ hv
    simp at this

/-- `assocFind` fails exactly when the key has no binding. -/
theorem assocFind_eq_none_iff {β : Type} (m : List (Str × β)) (k : Str) :
    assocFind m k = none ↔ ∀ v, (k, v) ∉ m := by
  constructor
  · intro h v hv
    have : (assocFind m k).isSome = true := (assocFind_isSome_iff m k).mpr ⟨v, hv⟩
    rw [h] at this
    simp at this
  · intro h
    cases ha : assocFind m k with
    | none => rfl
    | some v =>
      obtain ⟨w, hw⟩ := (assocFind_isSome_iff m k).mp (by rw [ha]; rfl)
      exact absurd hw (h w)

/-- Membership in the sorted union of filtered names, phrased in terms
of the raw scan result and cluster metadata. -/
theorem mem_checkNames_iff (scanResult : scanner.Result) (metadata : kafka.ClusterMetadata)
    (excludeInternal : Bool) (excludeTopics : List Str) (nm : Str) :
    nm ∈ checkNames scanResult metadata excludeInternal excludeTopics ↔
      ((∃ ref, (nm, ref) ∈ scanResult.Topics ∧ shouldExcludeTopic nm excludeTopics = false) ∨
       (∃ info, (nm, info) ∈ metadata.Topics ∧
          ¬(info.Internal = true ∧ excludeInternal = true) ∧
          shouldExcludeTopic nm excludeTopics = false)) := by
  unfold checkNames checkRepoTopics checkClusterTopics
  rw [(List.perm_insertionSort _ _).mem_iff]
  simp only [List.mem_dedup, List.mem_append, List.mem_map, List.mem_filter,
    Bool.not_eq_true', Bool.and_eq_true, Bool.not_eq_false]
  constructor
  · rintro (⟨p, ⟨hp, hx⟩, rfl⟩ | ⟨p, ⟨hp, hi, hx⟩, rfl⟩)
    · exact .inl ⟨p.2, hp, hx⟩
    · refine .inr ⟨p.2, hp, ?_, hx⟩
      rintro ⟨h1, h2⟩
      rw [h1, h2] at hi
      simp at hi
  · rintro (⟨ref, hp, hx⟩ | ⟨info, hp, hi, hx⟩)
    · exact .inl ⟨(nm, ref), ⟨hp, hx⟩, rfl⟩
    · refine .inr ⟨(nm, info), ⟨hp, ?_, hx⟩, rfl⟩
      cases hb : info.Internal <;> cases he : excludeInternal <;> simp_all

/-- C1: the check findings list has exactly one finding per name in the
union of the pattern-filtered repository-referenced names and the
internal-and-pattern-filtered cluster names (no finding for any other
name), `TotalFindings` equals the number of findings (the size of that
union, as the names are distinct and exhaust it), and the list is
ordered by status rank (`checkStatusSortValue`: MissingInCluster = 0,
Unused = 1, UnreferencedInRepo = 2, OK = 3) with ties broken by topic
name ascending (`checkFindingLe`). -/
theorem buildCheckResult_union_sorted (scanResult : scanner.Result)
    (metadata : kafka.ClusterMetadata) (excludeInternal : Bool) (excludeTopics : List Str) :
    ((buildCheckResult scanResult metadata excludeInternal excludeTopics).Findings.map
        reporter.CheckFinding.Topic).Nodup ∧
    (∀ nm : Str,
      nm ∈ (buildCheckResult scanResult metadata excludeInternal excludeTopics).Findings.map
          reporter.CheckFinding.Topic ↔
        ((∃ ref, (nm, ref) ∈ scanResult.Topics ∧ shouldExcludeTopic nm excludeTopics = false) ∨
         (∃ info, (nm, info) ∈ metadata.Topics ∧
            ¬(info.Internal = true ∧ excludeInternal = true) ∧
            shouldExcludeTopic nm excludeTopics = false))) ∧
    (buildCheckResult scanResult metadata excludeInternal excludeTopics).Summary.TotalFindings =
      ((buildCheckResult scanResult metadata excludeInternal excludeTopics).Findings.length : Int) ∧
    List.Pairwise checkFindingLe
      (buildCheckResult scanResult metadata excludeInternal excludeTopics).Findings := by
  have hF : (buildCheckResult scanResult metadata excludeInternal excludeTopics).Findings =
      List.insertionSort checkFindingLe
        ((checkNames scanResult metadata excludeInternal excludeTopics).map
          (checkFindingFor scanResult metadata excludeInternal excludeTopics)) := rfl
  have hmapTopic :
      ((checkNames scanResult metadata excludeInternal excludeTopics).map
        (checkFindingFor scanResult metadata excludeInternal excludeTopics)).map
        reporter.CheckFinding.Topic =
      checkNames scanResult metadata excludeInternal excludeTopics := by
    rw [List.map_map]
    exact List.map_id _
  have hperm : ((buildCheckResult scanResult metadata excludeInternal excludeTopics).Findings.map
      reporter.CheckFinding.Topic).Perm
        (checkNames scanResult metadata excludeInternal excludeTopics) := by
    have step := (List.perm_insertionSort checkFindingLe
      ((checkNames scanResult metadata excludeInternal excludeTopics).map
        (checkFindingFor scanResult metadata excludeInternal excludeTopics))).map
      reporter.CheckFinding.Topic
    rw [hmapTopic] at step
    rw [← hF] at step
    exact step
  have hnames_nodup : (checkNames scanResult metadata excludeInternal excludeTopics).Nodup := by
    unfold checkNames
    exact (List.perm_insertionSort (· ≤ ·) _).symm.nodup (List.nodup_dedup _)
  refine ⟨hperm.symm.nodup hnames_nodup, ?_, ?_, ?_⟩
  · intro nm
    rw [hperm.mem_iff]
    exact mem_checkNames_iff scanResult metadata excludeInternal excludeTopics nm
  · have h2 : (buildCheckResult scanResult metadata excludeInternal excludeTopics).Findings.length =
        (checkNames scanResult metadata excludeInternal excludeTopics).length := by
      rw [hF, (List.perm_insertionSort checkFindingLe _).length_eq, List.length_map]
    have h1 : (buildCheckResult scanResult metadata excludeInternal excludeTopics).Summary.TotalFindings =
        ((checkNames scanResult metadata excludeInternal excludeTopics).length : Int) := rfl
    rw [h1, h2]
  · rw [hF]
    exact List.sorted_insertionSort checkFindingLe _

/-- C5 (corrected): `buildCheckResult` applies exclude-pattern filtering
to both sides but internal-topic filtering only to the cluster side — a
name referenced in the repository that is absent from the filtered
cluster map (missing, or internal-filtered out when `excludeInternal`
is set) always yields a `MissingInCluster` finding, even
when `excludeInternal` is set and the name is an internal-style name. -/
theorem buildCheckResult_repoOnly_missing (scanResult : scanner.Result)
    (metadata : kafka.ClusterMetadata) (excludeInternal : Bool) (excludeTopics : List Str)
    (nm : Str) (ref : scanner.TopicReference)
    (h1 : (nm, ref) ∈ scanResult.Topics)
    (h2 : shouldExcludeTopic nm excludeTopics = false)
    (h3 : nm ∉ (checkClusterTopics metadata excludeInternal excludeTopics).map Prod.fst) :
    ∃ f ∈ (buildCheckResult scanResult metadata excludeInternal excludeTopics).Findings,
      f.Topic = nm ∧ f.Status = reporter.CheckStatusMissingInCluster ∧
      f.ReferencedInRepo = true ∧ f.InCluster = false := by
  have hrepo : (assocFind (checkRepoTopics scanResult excludeTopics) nm).isSome = true := by
    refine (assocFind_isSome_iff _ _).mpr ⟨ref, ?_⟩
    unfold checkRepoTopics
    exact List.mem_filter.mpr ⟨h1, by simp [h2]⟩
  have hclu : assocFind (checkClusterTopics metadata excludeInternal excludeTopics) nm = none := by
    refine (assocFind_eq_none_iff _ _).mpr ?_
    intro v hv
    exact h3 (List.mem_map.mpr ⟨(nm, v), hv, rfl⟩)
  have hmem : nm ∈ checkNames scanResult metadata excludeInternal excludeTopics :=
    (mem_checkNames_iff scanResult metadata excludeInternal excludeTopics nm).mpr
      (.inl ⟨ref, h1, h2⟩)
  refine ⟨checkFindingFor scanResult metadata excludeInternal excludeTopics nm, ?_, rfl, ?_, ?_, ?_⟩
  · have hF : (buildCheckResult scanResult metadata excludeInternal excludeTopics).Findings =
        List.insertionSort checkFindingLe
          ((checkNames scanResult metadata excludeInternal excludeTopics).map
            (checkFindingFor scanResult metadata excludeInternal excludeTopics)) := rfl
    rw [hF, (List.perm_insertionSort checkFindingLe _).mem_iff]
    exact List.mem_map.mpr ⟨nm, hmem, rfl⟩
  · show (checkFindingFor scanResult metadata excludeInternal excludeTopics nm).Status =
      reporter.CheckStatusMissingInCluster
    simp [checkFindingFor, hrepo, hclu, classifyCheckStatus]
  · show (checkFindingFor scanResult metadata excludeInternal excludeTopics nm).ReferencedInRepo = true
    simp [checkFindingFor, hrepo]
  · show (checkFindingFor scanResult metadata excludeInternal excludeTopics nm).InCluster = false
    simp [checkFindingFor, hclu]

/-- C5 counterexample: with `excludeInternal = true`, a cluster whose
only topic is the internal `__x`, and a repository referencing exactly
`__x`, the claim says the internal name is dropped from both sides and
produces no finding — but `buildCheckResult` drops it only from the
cluster side and reports one `MissingInCluster` finding for `__x`. -/
theorem buildCheckResult_internal_repo_counterexample :
    (buildCheckResult
      ⟨[], 0, [("__x".data, ⟨"__x".data, []⟩)]⟩
      ⟨[("__x".data, ⟨"__x".data, 1, 1, [], true⟩)], [], []⟩
      true []).Findings =
      [{ Topic := "__x".data
         Status := reporter.CheckStatusMissingInCluster
         ReferencedInRepo := true
         InCluster := false
         ConsumerGroups := []
         References := []
         Reason := "topic is referenced in code but does not exist in cluster".data }] ∧
    (buildCheckResult
      ⟨[], 0, [("__x".data, ⟨"__x".data, []⟩)]⟩
      ⟨[("__x".data, ⟨"__x".data, 1, 1, [], true⟩)], [], []⟩
      true []).Summary.TotalFindings = 1 := by
  exact ⟨by decide, by decide⟩

/-- C5 witness for `buildCheckResult_repoOnly_missing`: instantiated at
the counterexample scenario. -/
theorem buildCheckResult_repoOnly_missing_witness :
    ∃ f ∈ (buildCheckResult
        ⟨[], 0, [("__x".data, ⟨"__x".data, []⟩)]⟩
        ⟨[("__x".data, ⟨"__x".data, 1, 1, [], true⟩)], [], []⟩
        true []).Findings,
      f.Topic = "__x".data ∧ f.Status = reporter.CheckStatusMissingInCluster ∧
      f.ReferencedInRepo = true ∧ f.InCluster = false :=
  buildCheckResult_repoOnly_missing _ _ true [] "__x".data ⟨"__x".data, []⟩
    (by decide) (by decide) (by decide)

/-- The unused-finding names are (a permutation of) the names of the
surviving consumer-less topics. -/
theorem auditUnusedNames_perm (metadata : kafka.ClusterMetadata) (excludeInternal : Bool)
    (excludeTopics : List Str) :
    ((auditUnusedTopics metadata excludeInternal excludeTopics).map
      reporter.UnusedTopic.Name).Perm
      ((auditUnusedRaw metadata excludeInternal excludeTopics).map kafka.TopicInfo.Name) := by
  unfold auditUnusedTopics
  have h := (List.perm_insertionSort unusedNameLe
    ((auditUnusedRaw metadata excludeInternal excludeTopics).map (fun t =>
      let rp := classifyRisk t
      reporter.BuildUnusedTopic t "No consumer groups found".data
        (recommendationForRisk rp.1) rp.1 rp.2))).map reporter.UnusedTopic.Name
  rw [List.map_map] at h
  exact h

/-- The active-finding names are (a permutation of) the names of the
surviving consumed topics. -/
theorem auditActiveNames_perm (metadata : kafka.ClusterMetadata) (excludeInternal : Bool)
    (excludeTopics : List Str) :
    ((auditActiveTopics metadata excludeInternal excludeTopics).map
      reporter.ActiveTopic.Name).Perm
      ((auditActiveRaw metadata excludeInternal excludeTopics).map kafka.TopicInfo.Name) := by
  unfold auditActiveTopics
  have h := (List.perm_insertionSort activeNameLe
    ((auditActiveRaw metadata excludeInternal excludeTopics).map (fun t =>
      reporter.BuildActiveTopic t (buildConsumersByTopic metadata t.Name)))).map
      reporter.ActiveTopic.Name
  rw [List.map_map] at h
  exact h

/-- The boolean filter of `auditIncludedTopics`, unpacked. -/
theorem auditIncluded_of_mem (metadata : kafka.ClusterMetadata) (excludeInternal : Bool)
    (excludeTopics : List Str) (t : kafka.TopicInfo)
    (ht : t ∈ auditIncludedTopics metadata excludeInternal excludeTopics) :
    auditIncluded metadata excludeInternal excludeTopics t := by
  obtain ⟨hmem, hcond⟩ := List.mem_filter.mp ht
  rw [Bool.and_eq_true] at hcond
  refine ⟨hmem, ?_, by simpa using hcond.2⟩
  rintro ⟨h1, h2⟩
  rw [h1, h2] at hcond
  simp at hcond

/-- Converse of `auditIncluded_of_mem`. -/
theorem mem_of_auditIncluded (metadata : kafka.ClusterMetadata) (excludeInternal : Bool)
    (excludeTopics : List Str) (t : kafka.TopicInfo)
    (ht : auditIncluded metadata excludeInternal excludeTopics t) :
    t ∈ auditIncludedTopics metadata excludeInternal excludeTopics := by
  obtain ⟨hmem, hi, hx⟩ := ht
  refine List.mem_filter.mpr ⟨hmem, ?_⟩
  have hb : (t.Internal && excludeInternal) = false := by
    cases h1 : t.Internal with
    | false => exact Bool.false_and excludeInternal
    | true =>
      cases h2 : excludeInternal with
      | false => rfl
      | true => exact absurd ⟨h1, h2⟩ hi
  simp [hb, hx]

/-- Membership in the sorted unused-finding names. -/
theorem mem_auditUnusedNames_iff (metadata : kafka.ClusterMetadata) (excludeInternal : Bool)
    (excludeTopics : List Str) (nm : Str) :
    nm ∈ (auditUnusedTopics metadata excludeInternal excludeTopics).map
        reporter.UnusedTopic.Name ↔
      ∃ t, auditIncluded metadata excludeInternal excludeTopics t ∧ t.Name = nm ∧
        buildConsumersByTopic metadata nm = [] := by
  rw [(auditUnusedNames_perm metadata excludeInternal excludeTopics).mem_iff]
  constructor
  · intro hmem
    obtain ⟨t, ht, hname⟩ := List.mem_map.mp hmem
    obtain ⟨hinc, he⟩ := List.mem_filter.mp ht
    refine ⟨t, auditIncluded_of_mem _ _ _ _ hinc, hname, ?_⟩
    rw [← hname]
    simpa [List.isEmpty_iff] using he
  · rintro ⟨t, hinc, hname, he⟩
    refine List.mem_map.mpr ⟨t, ?_, hname⟩
    refine List.mem_filter.mpr ⟨mem_of_auditIncluded _ _ _ _ hinc, ?_⟩
    rw [hname]
    simp [List.isEmpty_iff, he]

/-- Membership in the sorted active-finding names. -/
theorem mem_auditActiveNames_iff (metadata : kafka.ClusterMetadata) (excludeInternal : Bool)
    (excludeTopics : List Str) (nm : Str) :
    nm ∈ (auditActiveTopics metadata excludeInternal excludeTopics).map
        reporter.ActiveTopic.Name ↔
      ∃ t, auditIncluded metadata excludeInternal excludeTopics t ∧ t.Name = nm ∧
        buildConsumersByTopic metadata nm ≠ [] := by
  rw [(auditActiveNames_perm metadata excludeInternal excludeTopics).mem_iff]
  constructor
  · intro hmem
    obtain ⟨t, ht, hname⟩ := List.mem_map.mp hmem
    obtain ⟨hinc, he⟩ := List.mem_filter.mp ht
    refine ⟨t, auditIncluded_of_mem _ _ _ _ hinc, hname, ?_⟩
    rw [← hname]
    simpa [List.isEmpty_iff] using he
  · rintro ⟨t, hinc, hname, he⟩
    refine List.mem_map.mpr ⟨t, ?_, hname⟩
    refine List.mem_filter.mpr ⟨mem_of_auditIncluded _ _ _ _ hinc, ?_⟩
    rw [hname]
    simp [List.isEmpty_iff, he]

/-- C2: after exclusion filtering, `buildAuditResult` classifies every
surviving topic into exactly one of the unused and active lists (unused
iff it has no consuming group), lists nothing else, and the two lists
are disjoint with no duplicate names — under the Go-map well-formedness
assumption that topic record names are distinct. -/
theorem buildAuditResult_partition (metadata : kafka.ClusterMetadata)
    (excludeInternal : Bool) (excludeTopics : List Str)
    (hN : ((metadata.Topics.map Prod.snd).map kafka.TopicInfo.Name).Nodup) :
    auditPartitionHolds metadata excludeInternal excludeTopics := by
  have hU : (buildAuditResult metadata excludeInternal excludeTopics).UnusedTopics =
      auditUnusedTopics metadata excludeInternal excludeTopics := rfl
  have hA : (buildAuditResult metadata excludeInternal excludeTopics).ActiveTopics =
      auditActiveTopics metadata excludeInternal excludeTopics := rfl
  have hsubU : ((auditUnusedRaw metadata excludeInternal excludeTopics).map
      kafka.TopicInfo.Name).Sublist ((metadata.Topics.map Prod.snd).map kafka.TopicInfo.Name) := by
    refine List.Sublist.map _ ?_
    exact (List.filter_sublist _).trans (List.filter_sublist _)
  have hsubA : ((auditActiveRaw metadata excludeInternal excludeTopics).map
      kafka.TopicInfo.Name).Sublist ((metadata.Topics.map Prod.snd).map kafka.TopicInfo.Name) := by
    refine List.Sublist.map _ ?_
    exact (List.filter_sublist _).trans (List.filter_sublist _)
  unfold auditPartitionHolds
  rw [hU, hA]
  refine ⟨fun nm => ⟨mem_auditUnusedNames_iff metadata excludeInternal excludeTopics nm,
    mem_auditActiveNames_iff metadata excludeInternal excludeTopics nm, ?_⟩, ?_, ?_⟩
  · rintro ⟨h1, h2⟩
    obtain ⟨t1, _, _, he1⟩ :=
      (mem_auditUnusedNames_iff metadata excludeInternal excludeTopics nm).mp h1
    obtain ⟨t2, _, _, he2⟩ :=
      (mem_auditActiveNames_iff metadata excludeInternal excludeTopics nm).mp h2
    exact he2 he1
  · exact (auditUnusedNames_perm metadata excludeInternal excludeTopics).symm.nodup
      (hN.sublist hsubU)
  · exact (auditActiveNames_perm metadata excludeInternal excludeTopics).symm.nodup
      (hN.sublist hsubA)

/-- C2 witness for `buildAuditResult_partition`: a two-topic cluster
(one consumed, one not) with distinct names. -/
theorem buildAuditResult_partition_witness :
    ((kafka.ClusterMetadata.Topics
        ⟨[("a".data, ⟨"a".data, 1, 1, [], false⟩), ("b".data, ⟨"b".data, 1, 1, [], false⟩)],
         [("g".data, ⟨"g".data, [], 0, ["a".data]⟩)], []⟩ |>.map Prod.snd).map
      kafka.TopicInfo.Name).Nodup ∧
    auditPartitionHolds
      ⟨[("a".data, ⟨"a".data, 1, 1, [], false⟩), ("b".data, ⟨"b".data, 1, 1, [], false⟩)],
       [("g".data, ⟨"g".data, [], 0, ["a".data]⟩)], []⟩ true [] :=
  ⟨by decide,
   buildAuditResult_partition
     ⟨[("a".data, ⟨"a".data, 1, 1, [], false⟩), ("b".data, ⟨"b".data, 1, 1, [], false⟩)],
      [("g".data, ⟨"g".data, [], 0, ["a".data]⟩)], []⟩ true [] (by decide)⟩

/-- C7 (amended, part 1): a successful `parseBlockList` call consumes
exactly a prefix of blank-or-indented lines — every consumed non-blank
line has leading whitespace (regardless of the key line's own
indentation) and starts with `-` after left-trimming — produces the
scalar-parsed items of those lines in order, advances the line counter
by the number of consumed lines, and stops at the first non-blank line
with no leading whitespace, returning it unconsumed for reprocessing. -/
theorem parseBlockList_spec :
    ∀ (lines : List Str) (n : Nat) (items rem : List Str) (m : Nat),
      config.parseBlockList lines n = .ok (items, rem, m) →
      ∃ consumed : List Str,
        lines = consumed ++ rem ∧
        m = n + consumed.length ∧
        (∀ l ∈ consumed, config.blockBlank l = true ∨
          (config.blockIndented l = true ∧
           config.dashFirst (config.trimLeftSpaceTab (config.processedLine l)) = true)) ∧
        items = consumed.filterMap config.blockItemOf ∧
        (rem = [] ∨ ∃ l' rem', rem = l' :: rem' ∧
          config.blockBlank l' = false ∧ config.blockIndented l' = false) := by
  intro lines
  induction lines with
  | nil =>
    intro n items rem m h
    simp only [config.parseBlockList, Except.ok.injEq, Prod.mk.injEq] at h
    obtain ⟨h1, h2, h3⟩ := h
    subst h1 h2 h3
    exact ⟨[], by simp, by simp, by simp, by simp, .inl rfl⟩
  | cons l rest ih =>
    intro n items rem m h
    rw [config.parseBlockList] at h
    by_cases hblank : config.trimSpace (config.stripInlineComment (config.trimRightCR l)) = []
    · rw [if_pos hblank] at h
      obtain ⟨consumed', hc1, hc2, hc3, hc4, hc5⟩ := ih (n + 1) items rem m h
      refine ⟨l :: consumed', by simp [hc1],
        by simp only [List.length_cons]; omega, ?_, ?_, hc5⟩
      · intro x hx
        rcases List.mem_cons.mp hx with rfl | hx'
        · refine .inl ?_
          unfold config.blockBlank config.processedLine
          exact decide_eq_true hblank
        · exact hc3 x hx'
      · have hbb : config.blockBlank l = true := by
          simp [config.blockBlank, config.processedLine, hblank]
        have hb : config.blockItemOf l = none := by
          unfold config.blockItemOf
          rw [if_pos hbb]
        simp only [List.filterMap_cons, hb]
        exact hc4
    · rw [if_neg hblank] at h
      by_cases hind : config.stripInlineComment (config.trimRightCR l) =
          config.trimLeftSpaceTab (config.stripInlineComment (config.trimRightCR l))
      · rw [if_pos hind] at h
        simp only [Except.ok.injEq, Prod.mk.injEq] at h
        obtain ⟨h1, h2, h3⟩ := h
        subst h1 h3
        refine ⟨[], by simp [← h2], by simp, by simp, by simp, ?_⟩
        refine .inr ⟨l, rest, h2.symm, ?_, ?_⟩
        · unfold config.blockBlank config.processedLine
          exact decide_eq_false hblank
        · unfold config.blockIndented config.processedLine
          rw [decide_eq_true hind]
          rfl
      · rw [if_neg hind] at h
        simp only [Bool.not_eq_true'] at h
        by_cases hdash : config.dashFirst (config.trimLeftSpaceTab
            (config.stripInlineComment (config.trimRightCR l))) = false
        · rw [if_pos hdash] at h
          simp at h
        · rw [if_neg hdash] at h
          have hdashT : config.dashFirst (config.trimLeftSpaceTab
              (config.stripInlineComment (config.trimRightCR l))) = true := by
            simpa using hdash
          by_cases hemp : config.trimSpace (List.drop 1 (config.trimLeftSpaceTab
              (config.stripInlineComment (config.trimRightCR l)))) = []
          · rw [if_pos hemp] at h
            simp at h
          · rw [if_neg hemp] at h
            cases hs : config.parseScalar (config.trimSpace (List.drop 1
                (config.trimLeftSpaceTab (config.stripInlineComment (config.trimRightCR l))))) with
            | error e =>
              rw [hs] at h
              simp at h
            | ok scalar =>
              rw [hs] at h
              cases hr : config.parseBlockList rest (n + 1) with
              | error e =>
                rw [hr] at h
                simp at h
              | ok triple =>
                obtain ⟨items', rem', m'⟩ := triple
                rw [hr] at h
                simp only [Except.ok.injEq, Prod.mk.injEq] at h
                obtain ⟨h1, h2, h3⟩ := h
                obtain ⟨consumed', hc1, hc2, hc3, hc4, hc5⟩ :=
                  ih (n + 1) items' rem' m' hr
                subst h2 h3
                refine ⟨l :: consumed', by simp [hc1],
                  by simp only [List.length_cons]; omega, ?_, ?_, hc5⟩
                · intro x hx
                  rcases List.mem_cons.mp hx with rfl | hx'
                  · refine .inr ⟨?_, by
                      unfold config.processedLine
                      exact hdashT⟩
                    unfold config.blockIndented config.processedLine
                    rw [decide_eq_false hind]
                    rfl
                  · exact hc3 x hx'
                · have hbb : config.blockBlank l = false := by
                    unfold config.blockBlank config.processedLine
                    exact decide_eq_false hblank
                  have hb : config.blockItemOf l = some scalar := by
                    unfold config.blockItemOf
                    rw [if_neg (by simp [hbb])]
                    have harg : config.trimSpace
                        ((config.trimLeftSpaceTab (config.processedLine l)).drop 1) =
                        config.trimSpace (List.drop 1 (config.trimLeftSpaceTab
                          (config.stripInlineComment (config.trimRightCR l)))) := rfl
                    rw [harg, hs]
                  simp only [List.filterMap_cons, hb]
                  rw [← h1, hc4]

/-- C7 (amended): the block-list characterization of
`parseBlockList_spec` together with the claim's round-trip example —
`exclude_topics:` followed by two indented quoted items yields exactly
those two patterns in order. -/
theorem config_blockList_amended :
    (∀ (lines : List Str) (n : Nat) (items rem : List Str) (m : Nat),
      config.parseBlockList lines n = .ok (items, rem, m) →
      ∃ consumed : List Str,
        lines = consumed ++ rem ∧
        m = n + consumed.length ∧
        (∀ l ∈ consumed, config.blockBlank l = true ∨
          (config.blockIndented l = true ∧
           config.dashFirst (config.trimLeftSpaceTab (config.processedLine l)) = true)) ∧
        items = consumed.filterMap config.blockItemOf ∧
        (rem = [] ∨ ∃ l' rem', rem = l' :: rem' ∧
          config.blockBlank l' = false ∧ config.blockIndented l' = false)) ∧
    config.parse "exclude_topics:\n  - \"__*\"\n  - \"*.dlq\"\n".data =
      .ok { ExcludeTopics := ["__*".data, "*.dlq".data] } :=
  ⟨parseBlockList_spec, by decide⟩

/-- C7 witness for `config_blockList_amended`: one indented `- "x"` line
is consumed whole as the single scalar item `x`. -/
theorem config_blockList_amended_witness :
    config.parseBlockList ["  - \"x\"".data] 1 = .ok (["x".data], [], 2) ∧
    (∃ consumed : List Str,
      ["  - \"x\"".data] = consumed ++ ([] : List Str) ∧
      2 = 1 + consumed.length ∧
      (∀ l ∈ consumed, config.blockBlank l = true ∨
        (config.blockIndented l = true ∧
         config.dashFirst (config.trimLeftSpaceTab (config.processedLine l)) = true)) ∧
      ["x".data] = consumed.filterMap config.blockItemOf ∧
      (([] : List Str) = [] ∨ ∃ l' rem', ([] : List Str) = l' :: rem' ∧
        config.blockBlank l' = false ∧ config.blockIndented l' = false)) :=
  ⟨by decide, config_blockList_amended.1 ["  - \"x\"".data] 1 ["x".data] [] 2 (by decide)⟩

/-- C7 counterexample: with the key line itself indented two spaces and
the item line indented one space, the claim's rule ("the block ends at
the first line at or below the key line's indentation, that line being
reprocessed as the next top-level key") predicts that ` - a` ends the
block and is reprocessed — which, as the second conjunct shows, would
fail with "unexpected list item".  The code instead ends a block only at
a line with no leading whitespace, so it consumes ` - a` as a list item
and the parse succeeds with `ExcludeTopics = ["a"]`. -/
theorem config_blockIndent_counterexample :
    config.parse "  exclude_topics:\n - a".data =
      .ok { ExcludeTopics := ["a".data] } ∧
    config.parseLinesF 2 [" - a".data] 2 {} =
      .error ⟨2, "unexpected list item"⟩ :=
  ⟨by decide, by decide⟩

/-- Whenever the parser's main loop succeeds, every line it processed as
a top-level key line carried a recognized key. -/
theorem parseLinesF_ok_keysOK :
    ∀ (fuel : Nat) (lines : List Str) (n : Nat) (cfg out : config.Config),
      config.parseLinesF fuel lines n cfg = .ok out → config.keysOK fuel lines n = true := by
  intro fuel
  induction fuel with
  | zero =>
    intro lines n cfg out h
    simp [config.parseLinesF] at h
  | succ fuel ih =>
    intro lines n cfg out h
    cases lines with
    | nil => simp [config.keysOK]
    | cons l rest =>
      rw [config.parseLinesF] at h
      rw [config.keysOK]
      by_cases hblank : config.trimSpace (config.stripInlineComment (config.trimRightCR l)) = []
      · rw [if_pos hblank] at h
        rw [if_pos hblank]
        exact ih rest (n + 1) cfg out h
      · rw [if_neg hblank] at h
        rw [if_neg hblank]
        by_cases hdash : config.dashFirst
            (config.trimSpace (config.stripInlineComment (config.trimRightCR l))) = true
        · rw [if_pos hdash] at h
          simp at h
        · rw [if_neg hdash] at h
          rw [if_neg hdash]
          split at h
          next => simp at h
          next keyPart valuePart hc =>
            by_cases hk1 : config.trimSpace keyPart = "bootstrap_servers".data
            · rw [if_pos hk1] at h
              rw [if_pos (by rw [hk1]; decide)]
              rw [if_neg (by
                rw [Bool.and_eq_true]
                rintro ⟨ha, _⟩
                rw [decide_eq_true_eq, hk1] at ha
                exact absurd ha (by decide))]
              split at h
              next => simp at h
              next scalar hs => exact ih rest (n + 1) _ out h
            · rw [if_neg hk1] at h
              by_cases hk2 : config.trimSpace keyPart = "auth_mechanism".data
              · rw [if_pos hk2] at h
                rw [if_pos (by rw [hk2]; decide)]
                rw [if_neg (by
                  rw [Bool.and_eq_true]
                  rintro ⟨ha, _⟩
                  rw [decide_eq_true_eq, hk2] at ha
                  exact absurd ha (by decide))]
                split at h
                next => simp at h
                next scalar hs => exact ih rest (n + 1) _ out h
              · rw [if_neg hk2] at h
                by_cases hk3 : config.trimSpace keyPart = "exclude_topics".data
                · rw [if_pos hk3] at h
                  rw [if_pos (by rw [hk3]; decide)]
                  by_cases hv : config.trimSpace valuePart = []
                  · rw [if_pos hv] at h
                    rw [if_pos (by rw [hk3, hv]; decide)]
                    split at h
                    next => simp at h
                    next items rem m hbl => exact ih rem m _ out h
                  · rw [if_neg hv] at h
                    rw [if_neg (by
                      rw [Bool.and_eq_true]
                      rintro ⟨_, hb⟩
                      rw [decide_eq_true_eq] at hb
                      exact hv hb)]
                    split at h
                    next => simp at h
                    next items hil => exact ih rest (n + 1) _ out h
                · rw [if_neg hk3] at h
                  by_cases hk4 : config.trimSpace keyPart = "exclude_internal".data
                  · rw [if_pos hk4] at h
                    rw [if_pos (by rw [hk4]; decide)]
                    rw [if_neg (by
                      rw [Bool.and_eq_true]
                      rintro ⟨ha, _⟩
                      rw [decide_eq_true_eq, hk4] at ha
                      exact absurd ha (by decide))]
                    split at h
                    next => simp at h
                    next scalar hs =>
                      split at h
                      next => simp at h
                      next b hb => exact ih rest (n + 1) _ out h
                  · rw [if_neg hk4] at h
                    by_cases hk5 : config.trimSpace keyPart = "format".data
                    · rw [if_pos hk5] at h
                      rw [if_pos (by rw [hk5]; decide)]
                      rw [if_neg (by
                        rw [Bool.and_eq_true]
                        rintro ⟨ha, _⟩
                        rw [decide_eq_true_eq, hk5] at ha
                        exact absurd ha (by decide))]
                      split at h
                      next => simp at h
                      next scalar hs => exact ih rest (n + 1) _ out h
                    · rw [if_neg hk5] at h
                      by_cases hk6 : config.trimSpace keyPart = "timeout".data
                      · rw [if_pos hk6] at h
                        rw [if_pos (by rw [hk6]; decide)]
                        rw [if_neg (by
                          rw [Bool.and_eq_true]
                          rintro ⟨ha, _⟩
                          rw [decide_eq_true_eq, hk6] at ha
                          exact absurd ha (by decide))]
                        split at h
                        next => simp at h
                        next scalar hs =>
                          split at h
                          next => simp at h
                          next d hd => exact ih rest (n + 1) _ out h
                      · rw [if_neg hk6] at h
                        simp at h

/-- A line that would be processed as a top-level key line with an
unrecognized key makes the main loop fail at exactly that line's number
with the unknown-key message. -/
theorem parseLinesF_unknownKey (fuel : Nat) (l : Str) (rest : List Str) (n : Nat)
    (cfg : config.Config) (key : Str) (hk : config.lineUnknownKey l = some key) :
    config.parseLinesF (fuel + 1) (l :: rest) n cfg =
      .error ⟨n, config.unknownKeyMsg key⟩ := by
  unfold config.lineUnknownKey at hk
  rw [config.parseLinesF]
  by_cases hblank : config.trimSpace (config.stripInlineComment (config.trimRightCR l)) = []
  · rw [if_pos hblank] at hk
    simp at hk
  · rw [if_neg hblank] at hk
    rw [if_neg hblank]
    by_cases hdash : config.dashFirst
        (config.trimSpace (config.stripInlineComment (config.trimRightCR l))) = true
    · rw [if_pos hdash] at hk
      simp at hk
    · rw [if_neg hdash] at hk
      rw [if_neg hdash]
      split at hk
      next => simp at hk
      next keyPart valuePart hc =>
        by_cases hmem : config.trimSpace keyPart ∈ config.recognizedKeys
        · rw [if_pos hmem] at hk
          simp at hk
        · rw [if_neg hmem] at hk
          simp only [Option.some.injEq] at hk
          rw [if_neg (fun hx => hmem (by rw [hx]; decide))]
          rw [if_neg (fun hx => hmem (by rw [hx]; decide))]
          rw [if_neg (fun hx => hmem (by rw [hx]; decide))]
          rw [if_neg (fun hx => hmem (by rw [hx]; decide))]
          rw [if_neg (fun hx => hmem (by rw [hx]; decide))]
          rw [if_neg (fun hx => hmem (by rw [hx]; decide))]
          rw [hk]

/-- C6: (1) if the main parse loop succeeds, every line it processed as
a top-level key line carried a recognized key — contrapositively, any
unrecognized top-level key makes the parse fail; (2) on reaching a line
with an unrecognized key, the loop fails with an error carrying exactly
that line's number and the unknown-key message; (3) a failed parse
returns an error and never any `Config`. -/
theorem config_unknown_key_rejected :
    (∀ (fuel : Nat) (lines : List Str) (n : Nat) (cfg out : config.Config),
      config.parseLinesF fuel lines n cfg = .ok out → config.keysOK fuel lines n = true) ∧
    (∀ (fuel : Nat) (l : Str) (rest : List Str) (n : Nat) (cfg : config.Config) (key : Str),
      config.lineUnknownKey l = some key →
      config.parseLinesF (fuel + 1) (l :: rest) n cfg =
        .error ⟨n, config.unknownKeyMsg key⟩) ∧
    (∀ (data : Str) (e : config.ParseErr), config.parse data = .error e →
      ∀ cfg, config.parse data ≠ .ok cfg) :=
  ⟨parseLinesF_ok_keysOK,
   fun fuel l rest n cfg key hk => parseLinesF_unknownKey fuel l rest n cfg key hk,
   fun _ _ he _ hc => by rw [he] at hc; exact Except.noConfusion hc⟩

/-- C6 witness for `config_unknown_key_rejected`: the line
`custom_key: 1` is an unknown-key line and fails at its line number;
a recognized-keys-only input parses and passes `keysOK`. -/
theorem config_unknown_key_rejected_witness :
    config.lineUnknownKey "custom_key: 1".data = some "custom_key".data ∧
    config.parseLinesF 1 ["custom_key: 1".data] 7 {} =
      .error ⟨7, config.unknownKeyMsg "custom_key".data⟩ ∧
    config.parseLinesF 2 ["format: json".data] 1 {} = .ok { Format := "json".data } ∧
    config.keysOK 2 ["format: json".data] 1 = true :=
  ⟨by decide,
   config_unknown_key_rejected.2.1 0 "custom_key: 1".data [] 7 {} "custom_key".data (by decide),
   by decide,
   config_unknown_key_rejected.1 2 ["format: json".data] 1 {} { Format := "json".data }
     (by decide)⟩
